import Mathlib

/-
Verification of the gvisdata DataTable library (lib/gvisdata.js) against its
specification.  The JavaScript source is shallowly embedded: JavaScript
runtime values become the inductive type `JSVal`, the stateful methods of
`DataTable` become functions that take and return explicit table states, and
thrown exceptions become `Except String` results carrying the thrown message.

Modelling conventions (documented where they matter):
* JavaScript numbers are modelled as `Int`.  No verified statement depends on
  non-integral or NaN numeric values.
* JavaScript object property order is modelled by association lists in
  insertion order, matching the source's reliance on for-in insertion order.
* Object identity (reference equality) is not modelled; the one place it
  could be observed (`==` between two objects in the row comparator) is
  modelled as `false`, which is the result for the distinct references that
  arise there.
-/

set_option maxHeartbeats 1000000

namespace Gvisdata

/-- Model of a JavaScript runtime value as the gvisdata source manipulates
them: undefined, null, booleans, numbers (restricted to integers), strings,
Date objects (by the components its accessors `getFullYear` .. `getSeconds`
return; `month` is 0-based as in JavaScript), arrays and plain objects. -/
inductive JSVal where
  | undef
  | null
  | bool (b : Bool)
  | num (n : Int)
  | str (s : String)
  | date (year month day hour minute second : Int)
  | arr (elems : List JSVal)
  | obj (fields : List (String × JSVal))
deriving Repr

namespace JSVal

/-- JavaScript `typeof` on the modelled values (`typeof null` is "object"). -/
def typeOf : JSVal → String
  | .undef => ("undefined")
  | .null => ("object")
  | .bool _ => ("boolean")
  | .num _ => ("number")
  | .str _ => ("string")
  | .date _ _ _ _ _ _ => ("object")
  | .arr _ => ("object")
  | .obj _ => ("object")

/-- `DataTable._t.isString`. -/
def isString : JSVal → Bool
  | .str _ => true
  | _ => false

/-- `DataTable._t.isArray` (constructor check). -/
def isArray : JSVal → Bool
  | .arr _ => true
  | _ => false

/-- `DataTable._t.isDate` (constructor check). -/
def isDate : JSVal → Bool
  | .date _ _ _ _ _ _ => true
  | _ => false

/-- `DataTable._t.isObject`: `typeof v == 'object'`.  Note that this is true
for `null`, arrays and Date objects as well as for plain objects. -/
def isObject (v : JSVal) : Bool :=
  v.typeOf == ("object")

/-- `DataTable._t.type`: "string" / "array" / "date" / "object" in that
order of tests, otherwise `typeof`.  (`null` falls into the "object" case.) -/
def tType (v : JSVal) : String :=
  if v.isString then ("string")
  else if v.isArray then ("array")
  else if v.isDate then ("date")
  else if v.isObject then ("object")
  else v.typeOf

/-- JavaScript truthiness (no NaN in the integer model). -/
def truthy : JSVal → Bool
  | .undef => false
  | .null => false
  | .bool b => b
  | .num n => n != 0
  | .str s => s != ("")
  | _ => true

/-- JavaScript loose `x == null`, true exactly for `null` and `undefined`. -/
def looseIsNull : JSVal → Bool
  | .null => true
  | .undef => true
  | _ => false

end JSVal

/-! Character-list implementations of the string operations the source
relies on (lower-casing, digit parsing, trimming, substring replacement).
They mirror the JavaScript behaviour on the character lists underlying
`String`, and — unlike some built-in `String` operations — evaluate by
kernel reduction, which the concrete verification steps below rely on. -/

/-- ASCII lower-casing of a string (`String.prototype.toLowerCase` on the
inputs that occur: type names and direction tokens). -/
def strToLower (s : String) : String :=
  String.mk (s.data.map Char.toLower)

/-- Decimal digit parse of a whole character list (semantics of
`String.toNat?`). -/
def digitsToNat (l : List Char) : Option Nat :=
  if l.isEmpty then none
  else
    l.foldl
      (fun acc c =>
        match acc with
        | none => none
        | some n => if c.isDigit then some (n * 10 + (c.toNat - 48)) else none)
      (some 0)

/-- Decimal parse of a string. -/
def strToNat (s : String) : Option Nat :=
  digitsToNat s.data

/-- Whitespace trim from both ends. -/
def strTrim (s : String) : String :=
  String.mk (((s.data.dropWhile Char.isWhitespace).reverse.dropWhile
    Char.isWhitespace).reverse)

/-- Whether `pat` is a prefix of `s` (character lists). -/
def takePrefixEq (pat s : List Char) : Bool :=
  s.take pat.length == pat

/-- Global substring replacement (the `/.../g` regex replaces of the
source, whose patterns are plain text), fuelled by the input length so that
it is structurally recursive. -/
def replaceAllFuel (pat rep : List Char) : Nat → List Char → List Char
  | 0, s => s
  | _ + 1, [] => []
  | fuel + 1, c :: rest =>
    if pat.length != 0 && takePrefixEq pat (c :: rest) then
      rep ++ replaceAllFuel pat rep fuel ((c :: rest).drop pat.length)
    else c :: replaceAllFuel pat rep fuel rest

/-- Global substring replacement on strings. -/
def strReplaceAll (s pat rep : String) : String :=
  String.mk (replaceAllFuel pat.data rep.data s.data.length s.data)

/-- `key1;key2` style splitting (semantics of `String.split` with a
one-character separator, as `tqx.split(';')` and `opt.split(':')` use). -/
def splitOnCharL (sep : Char) (l : List Char) : List (List Char)  :=
  match l with
  | [] => [[]]
  | c :: rest =>
    let r := splitOnCharL sep rest
    if c == sep then [] :: r
    else
      match r with
      | [] => [[c]]
      | piece :: more => (c :: piece) :: more

/-- `String.split` with a one-character separator. -/
def strSplitOnChar (sep : Char) (s : String) : List String :=
  (splitOnCharL sep s.data).map String.mk

/-- Keys produced by a JavaScript `for (k in v)` loop over the modelled
values: own enumerable property names.  Objects enumerate their keys in
insertion order, arrays and strings their index strings; Date objects,
`null` and primitives enumerate nothing. -/
def forInKeys : JSVal → List String
  | .obj kvs => kvs.map Prod.fst
  | .arr xs => (List.range xs.length).map (fun i => toString i)
  | .str s => (List.range s.length).map (fun i => toString i)
  | _ => []

/-- Values produced by iterating `for (i in v) ... v[i]`: object values in
insertion order, array elements; Date objects, `null` and primitives yield
nothing. -/
def forInValues : JSVal → List JSVal
  | .obj kvs => kvs.map Prod.snd
  | .arr xs => xs
  | .str s => s.data.map (fun c => .str c.toString)
  | _ => []

/-- `DataTable._o.prop`: property names, after a `typeof != 'object'` guard
(so strings yield `[]` here, unlike a bare for-in). -/
def oProp (v : JSVal) : List String :=
  if v.isObject then forInKeys v else []

/-- `DataTable._o.val`: property values, with the same guard. -/
def oVal (v : JSVal) : List JSVal :=
  if v.isObject then forInValues v else []

/-- JavaScript object property assignment `o[k] = v` on an insertion-ordered
association list: overwrite in place when the key exists, else append. -/
def objSet : List (String × JSVal) → String → JSVal → List (String × JSVal)
  | [], k, v => [(k, v)]
  | (k', v') :: rest, k, v =>
    if k' == k then (k', v) :: rest else (k', v') :: objSet rest k v

/-- JavaScript `String(v)` restricted to the modelled values.  Arrays join
their elements with commas (null/undefined elements become empty); plain
objects print as `[object Object]`.  Date objects stringify in JavaScript to
an environment-dependent local-time text; no verified statement depends on
it, and it is modelled by a stable placeholder rendering of the components.
`jsToStrElems` handles the array elements, where `null` and `undefined`
become the empty string. -/
def jsToStr : JSVal → String
  | .undef => ("undefined")
  | .null => ("null")
  | .bool b => if b then ("true") else ("false")
  | .num n => toString n
  | .str s => s
  | .date y mo d h mi s =>
    ("Date(") ++ String.intercalate (",") ([y, mo, d, h, mi, s].map toString) ++ (")")
  | .arr xs => String.intercalate (",") (jsToStrElems xs)
  | .obj _ => ("[object Object]")
where
  jsToStrElems : List JSVal → List String
    | [] => []
    | x :: rest =>
      (match x with
       | .null => ("")
       | .undef => ("")
       | v => jsToStr v) :: jsToStrElems rest

/-- JavaScript `ToPropertyKey` (via `ToString`) for values used as property
names, e.g. `undefined` indexes the property named "undefined". -/
def jsToPropKey (v : JSVal) : String :=
  jsToStr v

/-- JavaScript property read `v[k]`, as an `Except`: reading a property of
`null` or `undefined` throws a TypeError; a missing property is `undefined`.
Properties of numbers, booleans and Date objects read as `undefined` (no
methods are modelled). -/
def jsGetProp : JSVal → String → Except String JSVal
  | .null, _ => .error ("TypeError: cannot read properties of null")
  | .undef, _ => .error ("TypeError: cannot read properties of undefined")
  | .obj kvs, k => .ok ((kvs.lookup k).getD .undef)
  | .arr xs, k =>
    if k == ("length") then .ok (.num xs.length)
    else .ok (match strToNat k with
              | some i => xs.getD i .undef
              | none => .undef)
  | .str s, k =>
    if k == ("length") then .ok (.num s.length)
    else .ok (match strToNat k with
              | some i => if h : i < s.data.length then .str (s.data.get ⟨i, h⟩).toString else .undef
              | none => .undef)
  | _, _ => .ok (.undef)

/-- `DataTable._o.clone`: deep copy.  A value whose `typeof` is not
"object" clones to `{}`, and so do `null` and Date objects (no own
enumerable properties), faithfully reproducing that Date-valued members are
destroyed by cloning.  Members (`jsCloneFields` / `jsCloneElems`) recurse on
truthy values of object type and are copied directly otherwise. -/
def jsClone : JSVal → JSVal
  | .obj kvs => .obj (jsCloneFields kvs)
  | .arr xs => .arr (jsCloneElems xs)
  | _ => .obj []
where
  jsCloneFields : List (String × JSVal) → List (String × JSVal)
    | [] => []
    | (k, v) :: rest =>
      (k, if v.truthy && v.isObject then jsClone v else v) :: jsCloneFields rest
  jsCloneElems : List JSVal → List JSVal
    | [] => []
    | v :: rest =>
      (if v.truthy && v.isObject then jsClone v else v) :: jsCloneElems rest

/-- Characters the JavaScript `escape` function leaves unescaped. -/
def escapeKeeps (c : Char) : Bool :=
  (('A' ≤ c && c ≤ 'Z') || ('a' ≤ c && c ≤ 'z') || ('0' ≤ c && c ≤ '9') ||
   c == ('@' : Char) || c == ('*' : Char) || c == ('_' : Char) ||
   c == ('+' : Char) || c == ('-' : Char) || c == ('.' : Char) || c == ('/' : Char))

/-- Uppercase hexadecimal digits of a natural number, padded to `width`. -/
def hexPad (n : Nat) (width : Nat) : String :=
  let digits := (Nat.toDigits 16 n).map Char.toUpper
  let padded := List.replicate (width - digits.length) ('0' : Char) ++ digits
  String.mk padded

/-- One character under the JavaScript `escape` function: `%XX` for code
points below 256, `%uXXXX` for the rest. -/
def escapeChar (c : Char) : String :=
  if escapeKeeps c then c.toString
  else if c.val < 256 then ("%") ++ hexPad c.toNat 2
  else ("%u") ++ hexPad c.toNat 4

/-- The JavaScript global `escape` function. -/
def jsEscape (s : String) : String :=
  String.join (s.data.map escapeChar)

/-- JavaScript `String.prototype.replace` with a string pattern: replaces
only the first occurrence (list-of-characters core). -/
def jsReplaceFirstL (pat rep : List Char) : List Char → List Char
  | [] => if pat.length == 0 then rep else []
  | c :: rest =>
    if (c :: rest).take pat.length = pat then rep ++ (c :: rest).drop pat.length
    else c :: jsReplaceFirstL pat rep rest

/-- JavaScript `s.replace(pat, rep)` for string patterns (first occurrence
only; the replacements used by the source contain no `$` patterns). -/
def jsReplaceFirst (s pat rep : String) : String :=
  String.mk (jsReplaceFirstL pat.data rep.data s.data)

/-- `DataTable._escapeValue`: converts to a string, picks a quote character
(double quotes when the text contains an apostrophe), applies `escape`, and
undoes the escaping of `<`, `>`, `$` and `'` (global regex replaces). -/
def escapeValue (v : JSVal) : String :=
  let result := jsToStr v
  let q := if result.data.contains ('\x27' : Char) then ("\x22") else ("\x27")
  let escaped :=
    strReplaceAll (strReplaceAll (strReplaceAll (strReplaceAll (jsEscape result)
      ("%3C") ("<")) ("%3E") (">")) ("%24") ("$")) ("%27") ("\x27")
  q ++ escaped ++ q

/-- Total property read for keys enumerated from the value itself (cannot
throw). -/
def jsGetOwn (v : JSVal) (k : String) : JSVal :=
  match jsGetProp v k with
  | .ok r => r
  | .error _ => (.undef)

/-- `DataTable._escapeCustomProperties`: braces around comma-joined
`escapedKey:escapedValue` pairs. -/
def escapeCustomProperties (properties : JSVal) : String :=
  let l := (forInKeys properties).map
    (fun key => escapeValue (.str key) ++ (":") ++ escapeValue (jsGetOwn properties key))
  ("\x7b") ++ String.intercalate (",") l ++ ("\x7d")

/-- `DataTable._escapeValueForCSV`: wraps in double quotes, doubling (only)
the first inner double quote — `value.replace('"', '""')` replaces a single
occurrence.  Called on a non-string (`.replace` missing) it throws. -/
def escapeValueForCSV (value : JSVal) : Except String String :=
  match value with
  | .str s => .ok (("\x22") ++ jsReplaceFirst s ("\x22") ("\x22\x22") ++ ("\x22"))
  | _ => .error ("TypeError: value.replace is not a function")

/-- `DataTable._escapeHTML`: global entity replacement of `&`, `>`, `<`,
`"`; called on a non-string it throws. -/
def escapeHTML (value : JSVal) : Except String String :=
  match value with
  | .str s =>
    .ok (strReplaceAll (strReplaceAll (strReplaceAll (strReplaceAll s
      ("&") ("&amp;")) (">") ("&gt;")) ("<") ("&lt;")) ("\x22") ("&quot;"))
  | _ => .error ("TypeError: value.replace is not a function")

/-! JavaScript abstract comparison, as used by the row comparator built in
`preparedData` (`a == b ? 0 : a < b ? -1 : 1`).  Number coercion is
integer-only, consistent with the integer number model. -/

/-- JavaScript `ToNumber` on a string, integer fragment: trimmed empty
string is 0, an optional sign followed by digits parses, everything else is
NaN (`none`). -/
def strToNumOpt (s : String) : Option Int :=
  match (strTrim s).data with
  | [] => some 0
  | c :: rest =>
    if c == ('-' : Char) then (digitsToNat rest).map (fun n => -(n : Int))
    else if c == ('+' : Char) then (digitsToNat rest).map (fun n => (n : Int))
    else (digitsToNat (c :: rest)).map (fun n => (n : Int))

/-- Time value of a Date given its local components (month 0-based), in
seconds since the epoch: proleptic-Gregorian day count (days-from-civil)
plus the time of day.  JavaScript's value is in milliseconds and adjusted
for the local zone; this model is order-isomorphic for a fixed zone, and no
verified statement depends on absolute date values. -/
def dateValueSeconds (y mo d h mi s : Int) : Int :=
  let m := mo + 1
  let yAdj := if m ≤ 2 then y - 1 else y
  let era := yAdj.fdiv 400
  let yoe := yAdj - era * 400
  let mp := (m + 9) % 12
  let doy := (153 * mp + 2).fdiv 5 + d - 1
  let doe := yoe * 365 + yoe.fdiv 4 - yoe.fdiv 100 + doy
  let days := era * 146097 + doe - 719468
  days * 86400 + h * 3600 + mi * 60 + s

/-- JavaScript `ToNumber` (`none` is NaN): arrays and objects go through
their primitive (string) form. -/
def jsToNumOpt : JSVal → Option Int
  | .num n => some n
  | .bool b => some (if b then 1 else 0)
  | .null => some 0
  | .undef => none
  | .str s => strToNumOpt s
  | .date y mo d h mi s => some (dateValueSeconds y mo d h mi s)
  | v => strToNumOpt (jsToStr v)

/-- Composite (reference-typed) values: arrays, objects and dates. -/
def isComposite : JSVal → Bool
  | .arr _ => true
  | .obj _ => true
  | .date _ _ _ _ _ _ => true
  | _ => false

/-- `ToPrimitive` with number hint, for the relational comparison: dates
yield their time value, other composites their string form. -/
def toPrimNum (v : JSVal) : JSVal :=
  match v with
  | .date y mo d h mi s => .num (dateValueSeconds y mo d h mi s)
  | .arr xs => .str (jsToStr (.arr xs))
  | .obj kvs => .str (jsToStr (.obj kvs))
  | p => p

/-- `ToPrimitive` with default hint, for loose equality: dates (and other
composites) yield their string form. -/
def toPrimDefault (v : JSVal) : JSVal :=
  if isComposite v then .str (jsToStr v) else v

/-- Booleans coerce to numbers in loose equality. -/
def deBool (v : JSVal) : JSVal :=
  match v with
  | .bool b => .num (if b then 1 else 0)
  | p => p

/-- JavaScript loose equality `==` on the modelled values.  Two composite
values compare by reference in JavaScript; the row comparator only ever
compares cells of two distinct (freshly cloned) rows, so this is modelled
as `false`. -/
def jsLooseEq (a b : JSVal) : Bool :=
  if isComposite a && isComposite b then false
  else
    match toPrimDefault a, toPrimDefault b with
    | .null, .null => true
    | .null, .undef => true
    | .undef, .null => true
    | .undef, .undef => true
    | .null, _ => false
    | .undef, _ => false
    | _, .null => false
    | _, .undef => false
    | pa, pb =>
      match deBool pa, deBool pb with
      | .str x, .str y => x == y
      | x, y => (jsToNumOpt x).isSome && (jsToNumOpt x == jsToNumOpt y)

/-- Lexicographic comparison of character lists (JavaScript string `<` by
code points). -/
def charListLt : List Char → List Char → Bool
  | [], [] => false
  | [], _ :: _ => true
  | _ :: _, [] => false
  | a :: as, b :: bs =>
    if a.toNat < b.toNat then true
    else if b.toNat < a.toNat then false
    else charListLt as bs

/-- JavaScript relational `<`: string/string comparison is lexicographic,
otherwise both sides coerce to numbers and NaN makes the comparison false. -/
def jsLt (a b : JSVal) : Bool :=
  match toPrimNum a, toPrimNum b with
  | .str x, .str y => charListLt x.data y.data
  | pa, pb =>
    match jsToNumOpt pa, jsToNumOpt pb with
    | some x, some y => decide (x < y)
    | _, _ => false

/-! The value encoder `DataTable.singleValueToJS`. -/

/-- Result of `DataTable.singleValueToJS`: either a plain JavaScript-source
string, or the two-element array `[value, formattedOrNull]` produced for
tuple-form cells (`fmt`), whose first element is itself an encoder result. -/
inductive SVJS where
  | prim (s : String)
  | fmt (v : SVJS) (f : Option String)
deriving Repr, DecidableEq

/-- The escaping functions passed to `singleValueToJS`, modelled on values
(the default escaper stringifies anything; the CSV escaper throws on
non-strings). -/
def EscFn : Type := JSVal → Except String String

/-- The default escaper `DataTable._escapeValue` in `EscFn` form. -/
def escapeValueFn : EscFn := fun v => .ok (escapeValue v)

/-- `DataTable.singleValueToJS(value, type, escapeFn)`.  For a tuple-form
array cell the source re-encodes element 0 by calling itself *without* the
escape function, so the inner call always uses the default escaper; only
the formatted text (element 1) goes through `escapeFn`.  All thrown
exceptions become `.error` with the thrown message. -/
def singleValueToJS : JSVal → String → EscFn → Except String SVJS
  | .arr es, ty, escapeFn =>
    match es with
    | v0 :: v1 :: rest =>
      if rest.length > 1 || (rest.length == 1 && !((rest.getD 0 .undef).isObject)) then
        .error (("Wrong format for value and formatting - ") ++ jsToStr (.arr (v0 :: v1 :: rest)))
      else if !v1.isString && !v1.looseIsNull then
        .error (("Formatted value is not string, given ") ++ v1.typeOf)
      else do
        let jsValue ← singleValueToJS v0 ty escapeValueFn
        if v1.looseIsNull then
          .ok (.fmt jsValue none)
        else do
          let f ← escapeFn v1
          .ok (.fmt jsValue (some f))
    | es' =>
      .error (("Wrong format for value and formatting - ") ++ jsToStr (.arr es'))
  | value, ty, escapeFn =>
    if value.looseIsNull then .ok (.prim ("null"))
    else if ty == ("boolean") then
      .ok (.prim (if value.truthy then ("true") else ("false")))
    else if ty == ("number") then
      if value.tType == ("number") then .ok (.prim (jsToStr value))
      else .error (("Wrong type ") ++ value.tType ++ (" when expected number"))
    else if ty == ("string") then
      if value.tType == ("array") then .error ("Arrays are not allowed as string values")
      else (escapeFn value).map .prim
    else if ty == ("date") then
      match value with
      | .date y mo d _ _ _ =>
        .ok (.prim (("new Date(") ++ String.intercalate (",") ([y, mo, d].map toString) ++ (")")))
      | _ => .error (("Wrong type ") ++ value.tType ++ (" when expected Date"))
    else if ty == ("timeofday") then
      match value with
      | .date _ _ _ h mi s =>
        .ok (.prim (("[") ++ String.intercalate (",") ([h, mi, s].map toString) ++ ("]")))
      | _ => .error (("Wrong type ") ++ value.tType ++ (" when expected Date"))
    else if ty == ("datetime") then
      match value with
      | .date y mo d h mi s =>
        .ok (.prim (("new Date(") ++ String.intercalate (",") ([y, mo, d, h, mi, s].map toString) ++ (")")))
      | _ => .error (("Wrong type ") ++ value.tType ++ (" when expected datetime"))
    else .error (("Unsupported type ") ++ ty)

/-! The column descriptor parser `DataTable.columnTypeParser`. -/

/-- A parsed column descriptor, before the caller fills in depth and
container.  `id` and `label` are JavaScript values: the source only
verifies that the first two description elements are strings, so a label
(or the id of a pathological description) can be any value. -/
structure ColDesc where
  id : JSVal
  label : JSVal
  type : String
  custom_properties : JSVal
deriving Repr

/-- The fixed six-member type enum of the source. -/
def validTypes : List String :=
  [("string"), ("number"), ("boolean"), ("date"), ("datetime"), ("timeofday")]

/-- String content of a value already checked to be a string. -/
def asStr : JSVal → String
  | .str s => s
  | _ => ("")

/-- `DataTable.columnTypeParser(description)`.  Mirrors the source: a falsy
description throws; a non-array/non-string throws; a bare string wraps into
a one-element array; only `description.slice(0,2)` — the id and type slots —
are checked to be strings; keys fill by length; the fourth element must
satisfy `_t.isObject` (JavaScript `typeof == 'object'`, hence arrays and
`null` pass); a fifth element throws; finally the lower-cased type must be
in the six-member enum. -/
def columnTypeParser (description : JSVal) : Except String ColDesc :=
  if !description.truthy then
    .error ("Description error: empty description given")
  else
    let tDesc := description.tType
    if tDesc != ("array") && tDesc != ("string") then
      .error (("Description error: expected either string or array, got ") ++ tDesc)
    else
      let desc : List JSVal :=
        match description with
        | .str s => [.str s]
        | .arr xs => xs
        | _ => []
      match (desc.take 2).find? (fun e => !e.isString) with
      | some e =>
        .error (("Description error: expected array of strings current element of type ")
          ++ e.tType)
      | none =>
        let base : ColDesc :=
          { id := desc.getD 0 .undef, label := desc.getD 0 .undef
            type := ("string"), custom_properties := .obj [] }
        let step1 : Except String ColDesc :=
          if desc.length > 1 then
            let withType := { base with type := strToLower (asStr (desc.getD 1 .undef)) }
            if desc.length > 2 then
              let withLabel := { withType with label := desc.getD 2 .undef }
              if desc.length > 3 then
                if !(desc.getD 3 .undef).isObject then
                  .error (("Description error: expected custom properties object, ")
                    ++ ("current element of type ") ++ (desc.getD 3 .undef).tType)
                else
                  let withCp := { withLabel with custom_properties := desc.getD 3 .undef }
                  if desc.length > 4 then
                    .error ("Description error: array of length > 4")
                  else .ok withCp
              else .ok withLabel
            else .ok withType
          else .ok base
        match step1 with
        | .error e => .error e
        | .ok d =>
          if !(validTypes.contains d.type) then
            .error (("Description error: unsupported type \x27") ++ d.type ++ ("\x27"))
          else .ok d

/-! The schema normalizer `DataTable.tableDescriptionParser`. -/

/-- `DataTable._isColumnDesc`: heuristic for a single column definition —
a string, or an array of length ≠ 1 whose second element is one of the six
type names (not lower-cased here). -/
def isColumnDesc (value : JSVal) : Bool :=
  match value with
  | .str _ => true
  | .arr xs =>
    if xs.length == 1 then false
    else
      match xs.getD 1 .undef with
      | .str s => validTypes.contains s
      | _ => false
  | _ => false

/-- A normalized column: the descriptor plus depth and container
('scalar' / 'iter' / 'dict', as in the source). -/
structure Column where
  id : JSVal
  label : JSVal
  type : String
  custom_properties : JSVal
  depth : Nat
  container : String
deriving Repr

/-- Attach depth and container to a parsed descriptor. -/
def mkColumn (cd : ColDesc) (depth : Nat) (container : String) : Column :=
  { id := cd.id, label := cd.label, type := cd.type
    custom_properties := cd.custom_properties, depth := depth, container := container }

/-- The column description the innermost-mapping branch hands to
`columnTypeParser` for one key/value pair: the key is unshifted onto an
array value, otherwise the pair `[key, value]` is formed. -/
def innerPairDesc (k : String) (v : JSVal) : JSVal :=
  match v with
  | .arr xs => .arr (.str k :: xs)
  | _ => .arr [.str k, v]

/-- The in-place mutation the innermost-mapping branch performs on the
caller's description: `tableDescription[i].unshift(i)` prepends the key to
an array value; other values are untouched. -/
def innerPairMutated (kv : String × JSVal) : String × JSVal :=
  match kv.2 with
  | .arr xs => (kv.1, .arr (.str kv.1 :: xs))
  | _ => kv

/-- The most-inner-object test of the source: more than one key, or a
single key whose value is an array of length < 4 with a string first
element. -/
def tdInnerCond (kvs : List (String × JSVal)) : Bool :=
  decide (kvs.length ≠ 1) ||
    (match kvs.head? with
     | some (_, .arr xs) => (xs.getD 0 .undef).isString && decide (xs.length < 4)
     | _ => false)

/-- `DataTable.tableDescriptionParser(tableDescription, depth)`.  Mutation
of the caller's description (the innermost branch's `unshift`) is made
explicit: on success the parser returns the flat column list *and* the
final state of the description value. -/
def tableDescriptionParser (td : JSVal) (depth : Nat) :
    Except String (List Column × JSVal) :=
  if isColumnDesc td then
    (columnTypeParser td).map (fun pc => ([mkColumn pc depth ("scalar")], td))
  else if !td.isArray && !td.isObject then
    .error (("Expected an iterable object, got ") ++ td.tType)
  else if td.tType != ("object") then
    -- an array (or a Date, which enumerates nothing and hence fails below)
    ((forInValues td).mapM (fun x => (columnTypeParser x).map (mkColumn · depth ("iter")))).bind
      (fun columns =>
        if columns.length == 0 then
          .error ("Description iterable objects should not be empty.")
        else .ok (columns, td))
  else
    match td with
    | .obj kvs =>
      if kvs.length == 0 then
        .error ("Empty objects are not allowed inside description")
      else if tdInnerCond kvs then
        (kvs.mapM (fun kv => (columnTypeParser (innerPairDesc kv.1 kv.2)).map
            (mkColumn · depth ("dict")))).map
          (fun columns => (columns, .obj (kvs.map innerPairMutated)))
      else
        match kvs with
        | [(k0, v0)] =>
          (columnTypeParser (.str k0)).bind (fun pc =>
            (tableDescriptionParser v0 (depth + 1)).map (fun r =>
              (mkColumn pc depth ("dict") :: r.1, .obj [(k0, r.2)])))
        | _ => .error ("unreachable: single-key branch with several keys")
    | _ =>
      -- only `null` has tType "object" without being an object; it has no
      -- properties, so the source's emptiness check fires
      .error ("Empty objects are not allowed inside description")

/-! The table state and the data binder. -/

/-- A committed row `[colValues, customProperties]`: the cell object (column
id → value, insertion-ordered) and the row-level custom properties value. -/
structure Row where
  cells : List (String × JSVal)
  cp : JSVal
deriving Repr

/-- The mutable state of a `DataTable` instance: `this._columns`,
`this._data` and `this.customProperties`. -/
structure Table where
  columns : List Column
  data : List Row
  customProperties : JSVal
deriving Repr

/-- Own enumerable property names of a column descriptor object, in
creation order, as a `for (key in this._columns[colIndex])` loop visits
them. -/
def columnFieldNames : List String :=
  [("id"), ("label"), ("type"), ("custom_properties"), ("depth"), ("container")]

/-- Property read on a column descriptor viewed as the JavaScript object it
is in the source. -/
def columnFieldVal (c : Column) (k : String) : JSVal :=
  if k == ("id") then c.id
  else if k == ("label") then c.label
  else if k == ("type") then .str c.type
  else if k == ("custom_properties") then c.custom_properties
  else if k == ("depth") then .num c.depth
  else if k == ("container") then .str c.container
  else (.undef)

/-- Depth of the last column (the column list is never empty when this is
reached). -/
def lastColDepth (cols : List Column) : Nat :=
  ((cols.getLast?).map Column.depth).getD 0

/-- The last-level mapping branch of `_innerAppendData`.  The source loops
`for (key in this._columns[colIndex])` — over the *descriptor's own
properties*, not over the remaining columns — and reads
`this._columns[colIndex][key].id`, i.e. the `.id` property of each field
value (normally `undefined`), then copies `data[curId]` when it is not
null/undefined.  Reading `.id` throws when a field value is `null`, and
indexing `data` throws when `data` is `null`. -/
def lastLevelCopy (c : Column) (data : JSVal)
    (cells0 : List (String × JSVal)) : Except String (List (String × JSVal)) :=
  columnFieldNames.foldlM
    (fun cells key => do
      let curId ← jsGetProp (columnFieldVal c key) ("id")
      let v ← jsGetProp data (jsToPropKey curId)
      if !v.looseIsNull then
        pure (objSet cells (jsToPropKey curId) v)
      else pure cells)
    cells0

/-- The iterable branch of `_innerAppendData`: consume the array
positionally against consecutive columns, checking for exhaustion of the
column list before each assignment. -/
def iterConsume (cols : List Column) (cells : List (String × JSVal))
    (xs : List JSVal) (colIndex : Nat) : Except String (List (String × JSVal)) :=
  match xs with
  | [] => .ok cells
  | x :: rest =>
    match cols.get? colIndex with
    | none => .error ("Too many elements given in data")
    | some c => iterConsume cols (objSet cells (jsToPropKey c.id) x) rest (colIndex + 1)

/-- `this._innerAppendData(prevColValues, data, colIndex)`.  Returns the
rows pushed onto `this._data` by this call; a thrown exception becomes
`.error` (rows already pushed before an exception are not tracked — no
verified statement depends on the partially-committed state).  The source's
entry guard `colIndex >= this._columns` compares a number against the
column *array*, whose ToNumber is NaN, so it never fires; an out-of-range
column access instead throws a TypeError when `.container` is read.
`dictChildren` is the `for (key in data)` loop of the inner-depth mapping
branch: each key clones the partial row, assigns the key as the current
column's value and recurses on the key's value at the next column. -/
def innerAppendData (cols : List Column) (prevCells : List (String × JSVal))
    (cp : JSVal) (data : JSVal) (colIndex : Nat) : Except String (List Row) :=
  match cols.get? colIndex with
  | none => .error ("TypeError: cannot read properties of undefined")
  | some col =>
    if col.container == ("scalar") then
      .ok [{ cells := objSet prevCells (jsToPropKey col.id) data, cp := cp }]
    else if col.container == ("iter") then
      match data with
      | .arr xs =>
        (iterConsume cols prevCells xs colIndex).map
          (fun cells => [{ cells := cells, cp := cp }])
      | _ => .error (("Expected iterable object, got ") ++ data.tType)
    else
      if !data.isObject || data.isArray then
        .error (("Expected dictionary at current level, got ") ++ data.tType)
      else if col.depth == lastColDepth cols then
        (lastLevelCopy col data prevCells).map
          (fun cells => [{ cells := cells, cp := cp }])
      else if (oProp data).length == 0 then
        .ok [{ cells := prevCells, cp := cp }]
      else
        match data with
        | .obj kvs => dictChildren col kvs
        | _ => .error ("unreachable: non-object value with properties")
where
  dictChildren (col : Column) : List (String × JSVal) → Except String (List Row)
    | [] => .ok []
    | (k, v) :: rest => do
      let rows ← innerAppendData cols
        (objSet (jsClone.jsCloneFields prevCells) (jsToPropKey col.id) (.str k))
        cp v (colIndex + 1)
      let more ← dictChildren col rest
      .ok (rows ++ more)

/-- `this.appendData(data, customProperties)`: when the last column's depth
is falsy (0), iterate the payload one element per row (`data[i]` for an
array, the key `i` itself otherwise — "replicating python specific
behaviour"); otherwise hand the whole payload to `_innerAppendData`.  An
empty column list would throw reading `.depth` of `undefined` (never
happens: the description parser rejects empty descriptions). -/
def appendData (t : Table) (data : JSVal) (customProperties : JSVal) :
    Except String Table :=
  match t.columns.getLast? with
  | none => .error ("TypeError: cannot read properties of undefined")
  | some lastCol =>
    if lastCol.depth == 0 then
      ((if data.isArray then forInValues data else (forInKeys data).map JSVal.str).mapM
          (fun e => innerAppendData t.columns [] customProperties e 0)).map
        (fun parts => { t with data := t.data ++ parts.flatten })
    else
      (innerAppendData t.columns [] customProperties data 0).map
        (fun rows => { t with data := t.data ++ rows })

/-- `this.loadData(data, customProperties)`: clear the rows, then append. -/
def loadData (t : Table) (data : JSVal) (customProperties : JSVal) :
    Except String Table :=
  appendData { t with data := [] } data customProperties

/-- `this.numberOfRows()`. -/
def numberOfRows (t : Table) : Nat :=
  t.data.length

/-- The `DataTable` constructor: parse the description, set custom
properties when given, load data when given.  On success it returns the
constructed table *and* the final state of the caller's `tableDescription`
argument (which `tableDescriptionParser` may have mutated). -/
def createDataTable (tableDescription : JSVal) (data : JSVal)
    (customProperties : JSVal) : Except String (Table × JSVal) :=
  match tableDescriptionParser tableDescription 0 with
  | .error e => .error e
  | .ok (cols, td') =>
    let t0 : Table :=
      { columns := cols, data := []
        customProperties := if !customProperties.looseIsNull then customProperties else .obj [] }
    if !data.looseIsNull then
      match loadData t0 data .null with
      | .error e => .error e
      | .ok t1 => .ok (t1, td')
    else .ok (t0, td')

/-! Row ordering: `this.preparedData(orderBy)`. -/

/-- `toLowerCase()` on a value: throws unless it is a string. -/
def toLowerOf (v : JSVal) : Except String String :=
  match v with
  | .str s => .ok (strToLower s)
  | _ => .error ("TypeError: toLowerCase is not a function")

/-- The message thrown for an order-by entry that is neither a string nor a
`[columnId, 'asc'|'desc']` pair. -/
def sortKeyErrMsg : String :=
  ("Expected array with second value: \x27asc\x27 or \x27desc\x27")

/-- The `properSortKeys` loop of `preparedData`: a string entry sorts
ascending by that column; an array of length 2 whose second element
lower-cases to 'asc' or 'desc' gives a signed key; anything else throws
(including a TypeError when the second pair element has no
`toLowerCase`). -/
def parseSortKeys (orderBy : List JSVal) : Except String (List (JSVal × Int)) :=
  orderBy.mapM (fun e =>
    if e.isString then .ok ((e, 1) : JSVal × Int)
    else
      match e with
      | .arr [k, d] => do
        let dl ← toLowerOf d
        if dl == ("asc") || dl == ("desc") then
          .ok (k, if dl == ("asc") then (1 : Int) else -1)
        else .error sortKeyErrMsg
      | _ => .error sortKeyErrMsg)

/-- The comparator closure passed to `sort`: first differing key decides,
`ascMult * (a == b ? 0 : a < b ? -1 : 1)`; exhausted keys compare equal. -/
def rowCompare (keys : List (JSVal × Int)) (r1 r2 : Row) : Int :=
  match keys with
  | [] => 0
  | (k, ascMult) :: rest =>
    let key := jsToPropKey k
    let a := (r1.cells.lookup key).getD .undef
    let b := (r2.cells.lookup key).getD .undef
    let cmpResult := ascMult * (if jsLooseEq a b then 0 else if jsLt a b then -1 else 1)
    if cmpResult != 0 then cmpResult else rowCompare rest r1 r2

/-- Stable insertion used to model `Array.prototype.sort` with a user
comparator (the engine's sort is stable). -/
def sortInsert (cmp : Row → Row → Int) (r : Row) : List Row → List Row
  | [] => [r]
  | x :: rest => if cmp r x < 0 then r :: x :: rest else x :: sortInsert cmp r rest

/-- Stable sort by a JavaScript comparator. -/
def jsSort (cmp : Row → Row → Int) (rows : List Row) : List Row :=
  rows.foldl (fun acc r => sortInsert cmp r acc) []

/-- `_o.clone(this._data)`: the row array deep-copies element-wise; each
row `[cells, cp]` clones its cell object, and its custom-properties value
when that is a truthy object. -/
def cloneDataRows (rows : List Row) : List Row :=
  rows.map (fun r =>
    { cells := jsClone.jsCloneFields r.cells
      cp := if r.cp.truthy && r.cp.isObject then jsClone r.cp else r.cp })

/-- The `.length` read `preparedData` performs on its argument: arrays and
strings have one, anything else reads `undefined` (falsy). -/
def obLength (orderBy : JSVal) : Nat :=
  match orderBy with
  | .arr xs => xs.length
  | .str s => s.length
  | _ => 0

/-- `this.preparedData(orderBy)`, state-threaded: returns the row list the
renderers iterate and the (unchanged) table.  An empty/absent ordering
returns `this._data` itself; otherwise a *clone* of `this._data` is sorted.
The source's wrap test `isArray(orderBy && orderBy.length == 2)` applies
`isArray` to the boolean value of `orderBy.length == 2` (`orderBy` is
truthy here), which is never an array — so only a bare string is wrapped
into a one-element list, and a `[columnId, direction]` pair flows into the
key loop as two separate string entries. -/
def preparedData (t : Table) (orderBy : JSVal) : Except String (List Row × Table) :=
  let ob := if orderBy.looseIsNull then .arr ([] : List JSVal) else orderBy
  if obLength ob == 0 then .ok (t.data, t)
  else
    let wrapped : List JSVal :=
      if ob.isString then [ob]
      else
        match ob with
        | .arr xs => xs
        | _ => []
    match parseSortKeys wrapped with
    | .error e => .error e
    | .ok keys => .ok (jsSort (rowCompare keys) (cloneDataRows t.data), t)

/-! The renderers.  Each is state-threaded: it returns the produced string
together with the table state at the end of the call.  Column orders are
modelled as lists of property-key strings (the source's default order pushes
the id values and indexes `colDict` with them, which coerces them to the
same property keys). -/

/-- Default column order: the ids of `this._columns` in order. -/
def defaultColumnOrder (cols : List Column) : List String :=
  cols.map (fun c => jsToPropKey c.id)

/-- Insertion-ordered dictionary update, as JavaScript property assignment
on `colDict`. -/
def colSet : List (String × Column) → String → Column → List (String × Column)
  | [], k, v => [(k, v)]
  | (k', v') :: rest, k, v =>
    if k' == k then (k', v) :: rest else (k', v') :: colSet rest k v

/-- `colDict`: id → column, built by assignment over `this._columns`. -/
def colDictOf (cols : List Column) : List (String × Column) :=
  cols.foldl (fun d c => colSet d (jsToPropKey c.id) c) []

/-- String concatenation of an encoder result, as JavaScript `'' + value`
stringifies the `[value, formatted]` array: elements joined with a comma,
a `null` formatted part becoming empty. -/
def svjsStr : SVJS → String
  | .prim s => s
  | .fmt v f => svjsStr v ++ (",") ++ (match f with | none => ("") | some s => s)

/-- String concatenation of a possibly-null formatted part, as JavaScript
`'' + value[1]` renders `null`. -/
def svjsConcatNull : Option String → String
  | none => ("null")
  | some s => s

/-- Whether a raw cell value is a 3-element array (carries cell custom
properties). -/
def cellLen3 : JSVal → Bool
  | .arr xs => xs.length == 3
  | _ => false

/-- Third element of a raw cell value (`row[col][2]`). -/
def cellThird : JSVal → JSVal
  | .arr xs => xs.getD 2 .undef
  | _ => (.undef)

/-- One column object of the `toJSON` column array. -/
def colJSONone (c : Column) : String :=
  let did := escapeValue c.id
  let dlabel := escapeValue c.label
  let dcp :=
    if (oProp c.custom_properties).length != 0 then
      (",p:") ++ escapeCustomProperties c.custom_properties
    else ("")
  ("\x7bid:") ++ did ++ (",label:") ++ dlabel ++ (",type:\x27") ++ c.type ++ ("\x27")
    ++ dcp ++ ("\x7d")

/-- One cell of a `toJSON` row.  The omission test is `!value` — any falsy
cell (absent, null, but also `false`, `0` and the empty string) in a column
that is not the last of the chosen order pushes an empty string (a bare
hole between commas).  For 3-element cells the source emits the oddly
formed `\x7bv:<joined value>,f:<escaped cp>,p:\x7d` when the formatted part is
non-null, which is reproduced verbatim. -/
def toJSONcell (colDict : List (String × Column)) (lastId : String) (r : Row)
    (colId : String) : Except String String :=
  let value := (r.cells.lookup colId).getD .undef
  if !value.truthy && colId != lastId then .ok ("")
  else
    match colDict.lookup colId with
    | none => .error ("TypeError: cannot read properties of undefined")
    | some c =>
      match singleValueToJS value c.type escapeValueFn with
      | .error e => .error e
      | .ok v =>
        match v with
        | .fmt jv f =>
          if cellLen3 value then
            match f with
            | none =>
              .ok (("\x7bv:") ++ svjsStr jv ++ (",p:")
                ++ escapeCustomProperties (cellThird value) ++ ("\x7d"))
            | some _ =>
              .ok (("\x7bv:") ++ svjsStr (.fmt jv f) ++ (",f:")
                ++ escapeCustomProperties (cellThird value) ++ (",p:\x7d"))
          else
            .ok (("\x7bv:") ++ svjsStr jv ++ (",f:") ++ svjsConcatNull f ++ ("\x7d"))
        | .prim s => .ok (("\x7bv:") ++ s ++ ("\x7d"))

/-- One row object of the `toJSON` row array. -/
def rowJSONone (colDict : List (String × Column)) (columnOrder : List String)
    (r : Row) : Except String String :=
  let lastId := (columnOrder.getLast?).getD ("")
  match columnOrder.mapM (fun colId => toJSONcell colDict lastId r colId) with
  | .error e => .error e
  | .ok cellJSON =>
    if (oProp r.cp).length != 0 then
      .ok (("\x7bc:[") ++ String.intercalate (",") cellJSON ++ ("],p:")
        ++ escapeCustomProperties r.cp ++ ("\x7d"))
    else
      .ok (("\x7bc:[") ++ String.intercalate (",") cellJSON ++ ("]\x7d"))

/-- `this.toJSON(columnOrder, orderBy)`.  A column order naming an unknown
id throws when `.custom_properties` is read off `undefined` in the column
loop. -/
def toJSON (t : Table) (columnOrder? : Option (List String)) (orderBy : JSVal) :
    Except String (String × Table) :=
  let columnOrder := columnOrder?.getD (defaultColumnOrder t.columns)
  let colDict := colDictOf t.columns
  match columnOrder.mapM (fun colId =>
      (match colDict.lookup colId with
       | none => .error ("TypeError: cannot read properties of undefined")
       | some c => .ok (colJSONone c) : Except String String)) with
  | .error e => .error e
  | .ok colJSON =>
    match preparedData t orderBy with
    | .error e => .error e
    | .ok (prepData, t1) =>
      match prepData.mapM (fun r => rowJSONone colDict columnOrder r) with
      | .error e => .error e
      | .ok rowJSON =>
        let genCustomProperties :=
          if (oProp t1.customProperties).length != 0 then
            (",p:") ++ escapeCustomProperties t1.customProperties
          else ("")
        .ok (("\x7bcols:[") ++ String.intercalate (",") colJSON ++ ("],rows:[")
          ++ String.intercalate (",") rowJSON ++ ("]") ++ genCustomProperties ++ ("\x7d"),
          t1)

/-- One `addColumn` statement (plus optional `setColumnProperties`) of
`toJSCode`. -/
def jsCodeColumn (name : String) (i : Nat) (c : Column) : String :=
  let type := c.type
  let label := escapeValue c.label
  let id := escapeValue c.id
  let addCol := name ++ (".addColumn(\x27") ++ type ++ ("\x27, ") ++ label ++ (", ")
    ++ id ++ (");\n")
  if (oProp c.custom_properties).length != 0 then
    addCol ++ name ++ (".setColumnProperties(") ++ toString i ++ (", ")
      ++ escapeCustomProperties c.custom_properties ++ (");\n")
  else addCol

/-- The `setCell` statement for one populated cell of `toJSCode` (cells
that are null/undefined are skipped by the caller). -/
def jsCodeCell (name : String) (i j : Nat) (cell : JSVal) (c : Column) :
    Except String String :=
  let cellCp :=
    if cell.isArray && cellLen3 cell then
      (", ") ++ escapeCustomProperties (cellThird cell)
    else ("")
  match singleValueToJS cell c.type escapeValueFn with
  | .error e => .error e
  | .ok v =>
    match v with
    | .fmt jv f =>
      let f' := svjsConcatNull f
      .ok (name ++ (".setCell(") ++ toString i ++ (", ") ++ toString j ++ (", ")
        ++ svjsStr jv ++ (", ") ++ f' ++ cellCp ++ (");\n"))
    | .prim s =>
      .ok (name ++ (".setCell(") ++ toString i ++ (", ") ++ toString j ++ (", ")
        ++ s ++ (");\n"))

/-- One data row of `toJSCode`: `setCell` statements for populated cells in
column order, then an optional `setRowProperties`. -/
def jsCodeRow (name : String) (colDict : List (String × Column))
    (columnOrder : List String) (i : Nat) (r : Row) : Except String String :=
  match (columnOrder.enum.mapM (fun (j, colId) =>
      let cell := (r.cells.lookup colId).getD .undef
      (if cell.looseIsNull then .ok ("")
       else
        match colDict.lookup colId with
        | none => .error ("TypeError: cannot read properties of undefined")
        | some c => jsCodeCell name i j cell c : Except String String))) with
  | .error e => .error e
  | .ok pieces =>
    let base := String.join pieces
    if (oProp r.cp).length != 0 then
      .ok (base ++ name ++ (".setRowProperties(") ++ toString i ++ (", ")
        ++ escapeCustomProperties r.cp ++ (");\n"))
    else .ok base

/-- `this.toJSCode(name, columnOrder, orderBy)`. -/
def toJSCode (t : Table) (name : String) (columnOrder? : Option (List String))
    (orderBy : JSVal) : Except String (String × Table) :=
  let columnOrder := columnOrder?.getD (defaultColumnOrder t.columns)
  let colDict := colDictOf t.columns
  let header := ("var ") ++ name ++ (" = new google.visualization.DataTable();\n")
  let header :=
    if (oProp t.customProperties).length != 0 then
      header ++ name ++ (".setTableProperties(")
        ++ escapeCustomProperties t.customProperties ++ (");\n")
    else header
  match columnOrder.enum.mapM (fun (i, colId) =>
      (match colDict.lookup colId with
       | none => .error ("TypeError: cannot read properties of undefined")
       | some c => .ok (jsCodeColumn name i c) : Except String String)) with
  | .error e => .error e
  | .ok colPieces =>
    let withCols := header ++ String.join colPieces
      ++ name ++ (".addRows(") ++ toString t.data.length ++ (");\n")
    match preparedData t orderBy with
    | .error e => .error e
    | .ok (prepData, t1) =>
      match prepData.enum.mapM (fun (i, r) => jsCodeRow name colDict columnOrder i r) with
      | .error e => .error e
      | .ok rowPieces => .ok (withCols ++ String.join rowPieces, t1)

/-- The date-family types whose CSV cells are quoted. -/
def isDateFamily (ty : String) : Bool :=
  ty == ("date") || ty == ("datetime") || ty == ("timeofday")

/-- One CSV cell: empty cells are `""`; others encode with the CSV escaper;
for date-family types the formatted part of a tuple cell is used (a `null`
formatted part joins as the empty string), otherwise the raw encoded value;
plain date-family encodings are wrapped in double quotes. -/
def csvCell (colDict : List (String × Column)) (r : Row) (colId : String) :
    Except String String :=
  match colDict.lookup colId with
  | none => .error ("TypeError: cannot read properties of undefined")
  | some c =>
    let cell := (r.cells.lookup colId).getD .undef
    if cell.looseIsNull then .ok ("\x22\x22")
    else
      match singleValueToJS cell c.type escapeValueForCSV with
      | .error e => .error e
      | .ok v =>
        match v with
        | .fmt jv f =>
          if isDateFamily c.type then
            .ok (match f with | none => ("") | some s => s)
          else .ok (svjsStr jv)
        | .prim s =>
          if s != ("\x22\x22") && isDateFamily c.type then
            .ok (("\x22") ++ s ++ ("\x22"))
          else .ok s

/-- `this.toCSV(columnOrder, orderBy, separator)`.  Labels escape through
the CSV escaper (throwing on a non-string label, as `.replace` is missing). -/
def toCSV (t : Table) (columnOrder? : Option (List String)) (orderBy : JSVal)
    (separator : String) : Except String (String × Table) :=
  let columnOrder := columnOrder?.getD (defaultColumnOrder t.columns)
  let colDict := colDictOf t.columns
  match columnOrder.mapM (fun colId =>
      (match colDict.lookup colId with
       | none => .error ("TypeError: cannot read properties of undefined")
       | some c => escapeValueForCSV c.label : Except String String)) with
  | .error e => .error e
  | .ok columnList =>
    let columnLine := String.intercalate separator columnList
    match preparedData t orderBy with
    | .error e => .error e
    | .ok (prepData, t1) =>
      match prepData.mapM (fun r =>
          (columnOrder.mapM (fun colId => csvCell colDict r colId)).map
            (String.intercalate separator)) with
      | .error e => .error e
      | .ok rowList =>
        .ok (columnLine ++ ("\n") ++ String.intercalate ("\n") rowList, t1)

/-- `this.toTSVExcel(columnOrder, orderBy)`: CSV with a tab separator. -/
def toTSVExcel (t : Table) (columnOrder? : Option (List String)) (orderBy : JSVal) :
    Except String (String × Table) :=
  toCSV t columnOrder? orderBy ("\t")

/-- One HTML cell: empty cells render the empty string; a tuple cell uses
its formatted part (throwing the `.replace` TypeError when that is null);
everything passes through the entity escaper. -/
def htmlCell (colDict : List (String × Column)) (r : Row) (colId : String) :
    Except String String :=
  match colDict.lookup colId with
  | none => .error ("TypeError: cannot read properties of undefined")
  | some c =>
    let cell := (r.cells.lookup colId).getD .undef
    let encoded : Except String SVJS :=
      if cell.looseIsNull then .ok (.prim (""))
      else singleValueToJS cell c.type escapeValueFn
    match encoded with
    | .error e => .error e
    | .ok v =>
      match v with
      | .fmt _ f =>
        match escapeHTML (match f with | none => .null | some s => .str s) with
        | .error e => .error e
        | .ok s => .ok (("<td>") ++ s ++ ("</td>"))
      | .prim s =>
        match escapeHTML (.str s) with
        | .error e => .error e
        | .ok s' => .ok (("<td>") ++ s' ++ ("</td>"))

/-- `this.toHTML(columnOrder, orderBy)`.  The `%s` template substitutions
are modelled by direct concatenation (each template contains a single
`%s`). -/
def toHTML (t : Table) (columnOrder? : Option (List String)) (orderBy : JSVal) :
    Except String (String × Table) :=
  let columnOrder := columnOrder?.getD (defaultColumnOrder t.columns)
  let colDict := colDictOf t.columns
  match columnOrder.mapM (fun colId =>
      (match colDict.lookup colId with
       | none => .error ("TypeError: cannot read properties of undefined")
       | some c =>
         match escapeHTML c.label with
         | .error e => .error e
         | .ok s => .ok (("<th>") ++ s ++ ("</th>")) : Except String String)) with
  | .error e => .error e
  | .ok columnList =>
    let headHTML := ("<thead><tr>") ++ String.join columnList ++ ("</tr></thead>")
    match preparedData t orderBy with
    | .error e => .error e
    | .ok (prepData, t1) =>
      match prepData.mapM (fun r =>
          (columnOrder.mapM (fun colId => htmlCell colDict r colId)).map
            (fun cells => ("<tr>") ++ String.join cells ++ ("</tr>"))) with
      | .error e => .error e
      | .ok rowList =>
        let bodyHTML := ("<tbody>") ++ String.join rowList ++ ("</tbody>")
        .ok (("<html><body><table border=\x27" ++ "1\x27>") ++ headHTML ++ bodyHTML
          ++ ("</table></body></html>"), t1)

/-- `this.toJSONResponse(columnOrder, orderBy, reqId, responseHandler)`:
three successive first-occurrence `%s` substitutions into the fixed
envelope. -/
def toJSONResponse (t : Table) (columnOrder? : Option (List String))
    (orderBy reqId responseHandler : JSVal) : Except String (String × Table) :=
  match toJSON t columnOrder? orderBy with
  | .error e => .error e
  | .ok (table, t1) =>
    let template :=
      ("%s(\x7b\x27version\x27:\x270.6\x27, \x27reqId\x27:\x27%s\x27, ")
        ++ ("\x27status\x27:\x27OK\x27, \x27table\x27: %s\x7d);")
    .ok (jsReplaceFirst
           (jsReplaceFirst
             (jsReplaceFirst template ("%s") (jsToStr responseHandler))
             ("%s") (jsToStr reqId))
           ("%s") table,
         t1)

/-- The default `tqx` dictionary of `toResponse`. -/
def tqxDefaults : List (String × JSVal) :=
  [(("version"), .str ("0.6")), (("out"), .str ("json")),
   (("responseHandler"), .str ("google.visualization.Query.setResponse")),
   (("reqId"), .num 0)]

/-- Parse the `key1:value1;key2:value2` request string into the dictionary,
starting from the defaults; any fragment that does not split into exactly
two parts throws. -/
def parseTqx (tqx : String) : Except String (List (String × JSVal)) :=
  (strSplitOnChar (';' : Char) tqx).foldlM
    (fun dict o =>
      (match strSplitOnChar (':' : Char) o with
       | [k, v] => .ok (objSet dict k (.str v))
       | _ => .error ("Invalid tqx provided.") : Except String (List (String × JSVal))))
    tqxDefaults

/-- `this.toResponse(columnOrder, orderBy, tqx)`: dispatch on the `out`
key after validating `version`. -/
def toResponse (t : Table) (columnOrder? : Option (List String)) (orderBy : JSVal)
    (tqx : String) : Except String (String × Table) :=
  match (if tqx != ("") then parseTqx tqx else .ok tqxDefaults :
      Except String (List (String × JSVal))) with
  | .error e => .error e
  | .ok dict =>
    let version := (dict.lookup ("version")).getD .undef
    let out := (dict.lookup ("out")).getD .undef
    if !(jsLooseEq version (.str ("0.6"))) then
      .error (jsReplaceFirst ("Version (%s) passed by request is not supported.")
        ("%s") (jsToStr version))
    else if jsLooseEq out (.str ("json")) then
      toJSONResponse t columnOrder? orderBy ((dict.lookup ("reqId")).getD .undef)
        ((dict.lookup ("responseHandler")).getD .undef)
    else if jsLooseEq out (.str ("html")) then
      toHTML t columnOrder? orderBy
    else if jsLooseEq out (.str ("csv")) then
      toCSV t columnOrder? orderBy (", ")
    else if jsLooseEq out (.str ("tsv-excel")) then
      toTSVExcel t columnOrder? orderBy
    else
      .error (jsReplaceFirst ("\x27out\x27 parameter: \x27%s\x27 is not supported")
        ("%s") (jsToStr out))

/-! Theorems for the claims. -/

/-- Whether an `Except` result is an error (a thrown JavaScript exception). -/
def exceptIsErr {α : Type} : Except String α → Bool
  | .error _ => true
  | .ok _ => false

theorem replaceFirstL_no_occurrence (q : Char) (rep s : List Char) (h : q ∉ s) :
    jsReplaceFirstL [q] rep s = s := by
  induction s with
  | nil => rfl
  | cons c rest ih =>
    have hq : c ≠ q := by
      intro hc
      exact h (hc ▸ List.mem_cons_self c rest)
    have hrest : q ∉ rest := fun hm => h (List.mem_cons_of_mem c hm)
    simp only [jsReplaceFirstL, List.length_cons, List.take]
    rw [if_neg (by simp [hq])]
    rw [ih hrest]

theorem replaceFirstL_first_occurrence (q : Char) (rep a b : List Char) (h : q ∉ a) :
    jsReplaceFirstL [q] rep (a ++ q :: b) = a ++ rep ++ b := by
  induction a with
  | nil => simp [jsReplaceFirstL]
  | cons c rest ih =>
    have hq : c ≠ q := by
      intro hc
      exact h (hc ▸ List.mem_cons_self c rest)
    have hrest : q ∉ rest := fun hm => h (List.mem_cons_of_mem c hm)
    simp only [List.cons_append, jsReplaceFirstL]
    rw [if_neg (by simp [hq])]
    rw [show List.append rest (q :: b) = rest ++ q :: b from rfl, ih hrest]

/-- C10: `_escapeValueForCSV` wraps the string in double quotes and doubles
only the *first* embedded double quote — `value.replace('"','""')` with a
string pattern replaces a single occurrence.  A quote-free string is only
wrapped; for a string whose first quote splits it as `a ++ '"' ++ b` (with
`a` quote-free), the quote is doubled and every later quote inside `b`
passes through unchanged. -/
theorem c10_escapeValueForCSV_doubles_only_first_quote :
    (∀ s : List Char, ('\x22' : Char) ∉ s →
      escapeValueForCSV (.str (String.mk s))
        = .ok (String.mk (('\x22' : Char) :: s ++ [('\x22' : Char)])))
  ∧ (∀ a b : List Char, ('\x22' : Char) ∉ a →
      escapeValueForCSV (.str (String.mk (a ++ ('\x22' : Char) :: b)))
        = .ok (String.mk (('\x22' : Char) ::
            (a ++ ('\x22' : Char) :: ('\x22' : Char) :: b) ++ [('\x22' : Char)]))) := by
  constructor
  · intro s h
    simp only [escapeValueForCSV, jsReplaceFirst]
    rw [replaceFirstL_no_occurrence _ _ _ h]
    rfl
  · intro a b h
    simp only [escapeValueForCSV, jsReplaceFirst]
    rw [replaceFirstL_first_occurrence _ _ _ _ h]
    show Except.ok (String.mk ((('\x22' : Char) :: (a ++ [('\x22' : Char), ('\x22' : Char)] ++ b))
      ++ [('\x22' : Char)])) = _
    refine congrArg Except.ok (congrArg String.mk ?_)
    simp

/-- C10 witness: the input `x"y"z` escapes to `"x""y"z"`, doubling the
first quote only. -/
theorem c10_witness :
    (('\x22' : Char) ∉ [('x' : Char)])
  ∧ escapeValueForCSV (.str (String.mk ([('x' : Char)] ++ ('\x22' : Char) ::
        [('y' : Char), ('\x22' : Char), ('z' : Char)])))
      = .ok (String.mk (('\x22' : Char) ::
          ([('x' : Char)] ++ ('\x22' : Char) :: ('\x22' : Char) ::
            [('y' : Char), ('\x22' : Char), ('z' : Char)]) ++ [('\x22' : Char)])) :=
  ⟨by decide,
   c10_escapeValueForCSV_doubles_only_first_quote.2
     [('x' : Char)] [('y' : Char), ('\x22' : Char), ('z' : Char)] (by decide)⟩

theorem singleValueToJS_tuple_step (v0 v1 : JSVal) (rest : List JSVal)
    (ty : String) (escapeFn : EscFn) :
    singleValueToJS (.arr (v0 :: v1 :: rest)) ty escapeFn =
      if rest.length > 1 || (rest.length == 1 && !((rest.getD 0 .undef).isObject)) then
        .error (("Wrong format for value and formatting - ") ++ jsToStr (.arr (v0 :: v1 :: rest)))
      else if !v1.isString && !v1.looseIsNull then
        .error (("Formatted value is not string, given ") ++ v1.typeOf)
      else
        (singleValueToJS v0 ty escapeValueFn).bind (fun jsValue =>
          if v1.looseIsNull then
            .ok (.fmt jsValue none)
          else
            (escapeFn v1).bind (fun f => .ok (.fmt jsValue (some f)))) := rfl

theorem tdp_obj_step (kvs : List (String × JSVal)) (depth : Nat) :
    tableDescriptionParser (.obj kvs) depth =
      if kvs.length == 0 then .error ("Empty objects are not allowed inside description")
      else if tdInnerCond kvs then
        (kvs.mapM (fun kv => (columnTypeParser (innerPairDesc kv.1 kv.2)).map
            (mkColumn · depth ("dict")))).map
          (fun columns => (columns, .obj (kvs.map innerPairMutated)))
      else
        match kvs with
        | [(k0, v0)] =>
          (columnTypeParser (.str k0)).bind (fun pc =>
            (tableDescriptionParser v0 (depth + 1)).map (fun r =>
              (mkColumn pc depth ("dict") :: r.1, .obj [(k0, r.2)])))
        | _ => .error ("unreachable: single-key branch with several keys") := by
  rw [tableDescriptionParser.eq_def]
  rfl

theorem tdp_obj_innermost (kvs : List (String × JSVal)) (d : Nat) (hne : kvs ≠ [])
    (hcond : tdInnerCond kvs = true) :
    tableDescriptionParser (.obj kvs) d =
      (kvs.mapM (fun kv => (columnTypeParser (innerPairDesc kv.1 kv.2)).map
          (mkColumn · d ("dict")))).map
        (fun cols => (cols, JSVal.obj (kvs.map innerPairMutated))) := by
  rw [tdp_obj_step]
  have hlen : (kvs.length == 0) = false := by
    simp [List.length_eq_zero, hne]
  rw [hlen]
  simp only [Bool.false_eq_true, if_false, hcond, if_true]

theorem list_map_eq_self {α : Type} (f : α → α) :
    ∀ (l : List α), l.map f = l → ∀ x ∈ l, f x = x := by
  intro l
  induction l with
  | nil => intro _ x hx; cases hx
  | cons a as ih =>
    intro h x hx
    injection h with h1 h2
    cases hx with
    | head => exact h1
    | tail _ hmem => exact ih h2 x hmem

/-- C3: the schema normalizer's dispatch on a keyed mapping.  When the
mapping has more than one key, or its single key maps to an array of
length < 4 whose first element is a string (the condition `tdInnerCond`,
transcribed from the source), it is the innermost level: every key/value
pair becomes one depth-`d` mapping-container column, parsed from the key
unshifted onto an array value or from the pair `[key, value]`
(`innerPairDesc`).  Otherwise the single key becomes one outer depth-`d`
mapping-container column prepended to the recursive parse of its value at
depth `d + 1`. -/
theorem c3_mapping_dispatch (kvs : List (String × JSVal)) (d : Nat) (hne : kvs ≠ []) :
    (tdInnerCond kvs = true →
      tableDescriptionParser (.obj kvs) d =
        (kvs.mapM (fun kv => (columnTypeParser (innerPairDesc kv.1 kv.2)).map
            (mkColumn · d ("dict")))).map
          (fun cols => (cols, JSVal.obj (kvs.map innerPairMutated))))
  ∧ (tdInnerCond kvs = false →
      ∃ k0 v0, kvs = [(k0, v0)] ∧
        tableDescriptionParser (.obj kvs) d =
          (columnTypeParser (.str k0)).bind (fun pc =>
            (tableDescriptionParser v0 (d + 1)).map (fun r =>
              (mkColumn pc d ("dict") :: r.1, JSVal.obj [(k0, r.2)])))) := by
  constructor
  · intro hcond
    exact tdp_obj_innermost kvs d hne hcond
  · intro hcond
    have hlen : kvs.length = 1 := by
      by_contra hlen
      have : tdInnerCond kvs = true := by
        simp only [tdInnerCond, Bool.or_eq_true, decide_eq_true_eq]
        exact Or.inl hlen
      rw [this] at hcond
      exact Bool.noConfusion hcond
    obtain ⟨kv, rfl⟩ := List.length_eq_one.mp hlen
    obtain ⟨k0, v0⟩ := kv
    refine ⟨k0, v0, rfl, ?_⟩
    rw [tdp_obj_step]
    simp [hcond]

/-- C3 witness: a two-key mapping takes the innermost branch, and a
single-key mapping whose value is itself a mapping takes the outer-column
branch. -/
theorem c3_witness :
    (([(("a"), JSVal.arr [.str ("number")]), (("b"), JSVal.str ("string"))] :
        List (String × JSVal)) ≠ [])
  ∧ (tableDescriptionParser
        (.obj [(("a"), .arr [.str ("number")]), (("b"), .str ("string"))]) 0 =
      (([(("a"), JSVal.arr [.str ("number")]), (("b"), JSVal.str ("string"))] :
          List (String × JSVal)).mapM
        (fun kv => (columnTypeParser (innerPairDesc kv.1 kv.2)).map
            (mkColumn · 0 ("dict")))).map
        (fun cols => (cols,
          JSVal.obj ([(("a"), JSVal.arr [.str ("number")]),
            (("b"), JSVal.str ("string"))].map innerPairMutated))))
  ∧ (∃ k0 v0,
      ([(("a"), JSVal.obj [(("b"), JSVal.str ("number"))])] :
        List (String × JSVal)) = [(k0, v0)] ∧
      tableDescriptionParser (.obj [(("a"), .obj [(("b"), .str ("number"))])]) 0 =
        (columnTypeParser (.str k0)).bind (fun pc =>
          (tableDescriptionParser v0 (0 + 1)).map (fun r =>
            (mkColumn pc 0 ("dict") :: r.1, JSVal.obj [(k0, r.2)])))) :=
  ⟨by simp,
   (c3_mapping_dispatch _ 0 (by simp)).1 rfl,
   (c3_mapping_dispatch _ 0 (by simp)).2 rfl⟩

/-- C9: when the innermost-mapping branch succeeds, the final state of the
caller's description object has each key that mapped to an array prepended
onto that array in place (`tableDescription[i].unshift(i)`), so
constructing a `DataTable` from such a description returns with the
caller's argument mutated — the final description state differs from the
one passed in whenever some key's value was an array. -/
theorem c9_innermost_branch_mutates_description (kvs : List (String × JSVal))
    (data cp : JSVal) (t : Table) (td' : JSVal)
    (hcond : tdInnerCond kvs = true)
    (hok : createDataTable (.obj kvs) data cp = .ok (t, td'))
    (k : String) (vs : List JSVal) (hmem : (k, JSVal.arr vs) ∈ kvs) :
    td' = .obj (kvs.map (fun kv =>
      match kv.2 with
      | .arr xs => (kv.1, JSVal.arr (.str kv.1 :: xs))
      | _ => kv))
  ∧ td' ≠ .obj kvs := by
  have hne : kvs ≠ [] := List.ne_nil_of_mem hmem
  have hmain : td' = .obj (kvs.map innerPairMutated) := by
    unfold createDataTable at hok
    rw [tdp_obj_innermost kvs 0 hne hcond] at hok
    cases hm : kvs.mapM (fun kv => (columnTypeParser (innerPairDesc kv.1 kv.2)).map
        (mkColumn · 0 ("dict"))) with
    | error e =>
      rw [hm] at hok
      simp only [Except.map] at hok
      exact Except.noConfusion hok
    | ok columns =>
      rw [hm] at hok
      simp only [Except.map] at hok
      split at hok
      · split at hok
        · exact Except.noConfusion hok
        · rename_i t1 heq
          injection hok with hok
          injection hok with _ hok
          exact hok.symm
      · injection hok with hok
        injection hok with _ hok
        exact hok.symm
  constructor
  · exact hmain
  · intro heq
    rw [hmain] at heq
    injection heq with heq
    have := list_map_eq_self innerPairMutated kvs heq (k, .arr vs) hmem
    simp only [innerPairMutated] at this
    injection this with _ h2
    injection h2 with h2
    have := congrArg List.length h2
    simp at this

/-- C9 witness: constructing a table from `{a:['number'], b:['string']}`
returns the description with both keys prepended in place, a value
different from the one the caller passed. -/
theorem c9_witness :
    (tdInnerCond [(("a"), JSVal.arr [.str ("number")]), (("b"), JSVal.arr [.str ("string")])] = true)
  ∧ (JSVal.obj [(("a"), .arr [.str ("a"), .str ("number")]),
        (("b"), .arr [.str ("b"), .str ("string")])]
      = .obj (([(("a"), JSVal.arr [.str ("number")]), (("b"), JSVal.arr [.str ("string")])] :
          List (String × JSVal)).map (fun kv =>
            match kv.2 with
            | .arr xs => (kv.1, JSVal.arr (.str kv.1 :: xs))
            | _ => kv)))
  ∧ (JSVal.obj [(("a"), .arr [.str ("a"), .str ("number")]),
        (("b"), .arr [.str ("b"), .str ("string")])]
      ≠ .obj [(("a"), .arr [.str ("number")]), (("b"), .arr [.str ("string")])]) := by
  have h := c9_innermost_branch_mutates_description
    [(("a"), .arr [.str ("number")]), (("b"), .arr [.str ("string")])] .null .null
    { columns := [
        { id := .str ("a"), label := .str ("a"), type := ("number")
          custom_properties := .obj [], depth := 0, container := ("dict") },
        { id := .str ("b"), label := .str ("b"), type := ("string")
          custom_properties := .obj [], depth := 0, container := ("dict") }]
      data := [], customProperties := .obj [] }
    (.obj [(("a"), .arr [.str ("a"), .str ("number")]),
           (("b"), .arr [.str ("b"), .str ("string")])])
    rfl rfl ("a") [.str ("number")] (by simp)
  exact ⟨rfl, h.1, h.2⟩

theorem innerAppend_iter_step (cols : List Column) (prev : List (String × JSVal))
    (cp : JSVal) (xs : List JSVal) (colIndex : Nat) (col : Column)
    (hget : cols.get? colIndex = some col)
    (hcont : col.container = ("iter")) :
    innerAppendData cols prev cp (.arr xs) colIndex =
      (iterConsume cols prev xs colIndex).map
        (fun cells => [{ cells := cells, cp := cp }]) := by
  simp only [innerAppendData, hget]
  simp [hcont]

theorem objSet_append (cells : List (String × JSVal)) (k : String) (v : JSVal)
    (h : k ∉ cells.map Prod.fst) : objSet cells k v = cells ++ [(k, v)] := by
  induction cells with
  | nil => rfl
  | cons hd tl ih =>
    obtain ⟨k', v'⟩ := hd
    simp only [List.map_cons, List.mem_cons] at h
    push_neg at h
    simp only [objSet]
    rw [if_neg (by simp; exact fun he => h.1 he.symm)]
    rw [ih h.2]
    simp

theorem iterConsume_spec (cols : List Column) :
    ∀ (xs : List JSVal) (k : Nat) (cells : List (String × JSVal)),
    k + xs.length ≤ cols.length →
    (cols.map (fun c => jsToPropKey c.id)).Nodup →
    (∀ c ∈ cols.drop k, jsToPropKey c.id ∉ cells.map Prod.fst) →
    iterConsume cols cells xs k
      = .ok (cells ++ ((cols.drop k).map (fun c => jsToPropKey c.id)).zip xs) := by
  intro xs
  induction xs with
  | nil =>
    intro k cells _ _ _
    simp [iterConsume]
  | cons x rest ih =>
    intro k cells hlen hnodup hfresh
    have hk : k < cols.length := by
      simp only [List.length_cons] at hlen
      omega
    have hget : cols.get? k = some (cols.get ⟨k, hk⟩) := List.get?_eq_get hk
    have hdrop : cols.drop k = cols.get ⟨k, hk⟩ :: cols.drop (k + 1) :=
      List.drop_eq_get_cons hk
    have hcmem : cols.get ⟨k, hk⟩ ∈ cols.drop k := by
      rw [hdrop]; exact List.mem_cons_self _ _
    simp only [iterConsume, hget]
    rw [objSet_append _ _ _ (hfresh _ hcmem)]
    have hnodropk : ((cols.drop k).map (fun c => jsToPropKey c.id)).Nodup :=
      hnodup.sublist ((List.drop_sublist k cols).map _)
    rw [ih (k + 1) (cells ++ [(jsToPropKey (cols.get ⟨k, hk⟩).id, x)])
      (by simp only [List.length_cons] at hlen; omega) hnodup ?_]
    · have hdropmap : (cols.map (fun c => jsToPropKey c.id)).drop k
          = jsToPropKey (cols.get ⟨k, hk⟩).id
            :: (cols.map (fun c => jsToPropKey c.id)).drop (k + 1) := by
        rw [← List.map_drop, ← List.map_drop, hdrop, List.map_cons]
      simp [List.append_assoc, List.map_drop, hdropmap]
    · intro c' hc'
      have hc'k : c' ∈ cols.drop k := by
        rw [hdrop]; exact List.mem_cons_of_mem _ hc'
      have hne' : jsToPropKey c'.id ≠ jsToPropKey (cols.get ⟨k, hk⟩).id := by
        rw [hdrop] at hnodropk
        simp only [List.map_cons, List.nodup_cons] at hnodropk
        intro he
        exact hnodropk.1 (he ▸ List.mem_map_of_mem _ hc')
      simp only [List.map_append, List.map_cons, List.map_nil, List.mem_append,
        List.mem_singleton]
      rintro (hmem | hmem)
      · exact hfresh c' hc'k hmem
      · exact hne' hmem

theorem iterConsume_overflow (cols : List Column) :
    ∀ (xs : List JSVal) (k : Nat) (cells : List (String × JSVal)),
    cols.length < k + xs.length → xs ≠ [] →
    iterConsume cols cells xs k = .error ("Too many elements given in data") := by
  intro xs
  induction xs with
  | nil => intro _ _ _ hne; exact absurd rfl hne
  | cons x rest ih =>
    intro k cells hlen _
    by_cases hk : k < cols.length
    · have hget : cols.get? k = some (cols.get ⟨k, hk⟩) := List.get?_eq_get hk
      simp only [iterConsume, hget]
      cases rest with
      | nil =>
        exfalso
        simp only [List.length_cons, List.length_nil] at hlen
        omega
      | cons y ys =>
        exact ih (k + 1) _ (by simp only [List.length_cons] at hlen ⊢; omega) (by simp)
    · have hget : cols.get? k = none := by
        rw [List.get?_eq_none]
        omega
      simp only [iterConsume, hget]

/-- C4: on a table whose columns all have depth 0 and sequence ('iter')
container, the binder consumes an array payload row positionally: a row no
longer than the column list commits one row whose cells pair consecutive
column ids with the elements (trailing columns simply absent — a sparse
row); a row with more elements than remaining columns throws the
cardinality error; `appendData` binds each top-level payload element
independently as one row; and the spec's concrete example — appending
`[[1,'a'],[2,'b']]` then `[[3,'c'],[4]]` to `[['a','number'],['b','string']]`
— yields four rows with the fourth row's `b` cell absent. -/
theorem c4_depth0_sequence_binding (t : Table) (cp : JSVal)
    (hne : t.columns ≠ [])
    (hall : ∀ c ∈ t.columns, c.depth = 0 ∧ c.container = ("iter"))
    (hnodup : (t.columns.map (fun c => jsToPropKey c.id)).Nodup) :
    (∀ xs : List JSVal, xs.length ≤ t.columns.length →
      innerAppendData t.columns [] cp (.arr xs) 0
        = .ok [{ cells := (t.columns.map (fun c => jsToPropKey c.id)).zip xs, cp := cp }])
  ∧ (∀ xs : List JSVal, t.columns.length < xs.length →
      innerAppendData t.columns [] cp (.arr xs) 0
        = .error ("Too many elements given in data"))
  ∧ (∀ payload : List JSVal,
      appendData t (.arr payload) cp
        = (payload.mapM (fun e => innerAppendData t.columns [] cp e 0)).map
            (fun parts => { t with data := t.data ++ parts.flatten }))
  ∧ (((createDataTable (.arr [.arr [.str ("a"), .str ("number")],
          .arr [.str ("b"), .str ("string")]]) .null .null).bind
        (fun p => (appendData p.1 (.arr [.arr [.num 1, .str ("a")],
            .arr [.num 2, .str ("b")]]) .null).bind
          (fun t1 => appendData t1 (.arr [.arr [.num 3, .str ("c")], .arr [.num 4]]) .null))).map
        (fun t2 => (numberOfRows t2, t2.data.map Row.cells))
      = .ok (4, [[(("a"), .num 1), (("b"), .str ("a"))],
                 [(("a"), .num 2), (("b"), .str ("b"))],
                 [(("a"), .num 3), (("b"), .str ("c"))],
                 [(("a"), .num 4)]])) := by
  obtain ⟨c0, cols', hcols⟩ : ∃ c0 cols', t.columns = c0 :: cols' := by
    cases hcase : t.columns with
    | nil => exact absurd hcase hne
    | cons a l => exact ⟨a, l, rfl⟩
  have hget0 : t.columns.get? 0 = some c0 := by rw [hcols]; rfl
  have hc0 : c0.container = ("iter") := (hall c0 (by rw [hcols]; exact List.mem_cons_self _ _)).2
  refine ⟨?_, ?_, ?_, ?_⟩
  · intro xs hxs
    rw [innerAppend_iter_step t.columns [] cp xs 0 c0 hget0 hc0]
    rw [iterConsume_spec t.columns xs 0 [] (by omega) hnodup (by simp)]
    simp [Except.map]
  · intro xs hxs
    rw [innerAppend_iter_step t.columns [] cp xs 0 c0 hget0 hc0]
    rw [iterConsume_overflow t.columns xs 0 [] (by omega)
      (List.ne_nil_of_length_pos (by omega))]
    simp [Except.map]
  · intro payload
    have hlast : ∃ lc, t.columns.getLast? = some lc := by
      rw [hcols]
      exact ⟨(c0 :: cols').getLast (by simp), List.getLast?_eq_getLast _ _⟩
    obtain ⟨lc, hlc⟩ := hlast
    have hlcmem : lc ∈ t.columns := by
      obtain ⟨l', hl'⟩ := List.getLast?_eq_some_iff.mp hlc
      rw [hl']
      simp
    have hlcd : lc.depth = 0 := (hall lc hlcmem).1
    unfold appendData
    rw [hlc]
    simp only [hlcd]
    rfl
  · rfl

/-- C4 witness: a concrete two-column depth-0 sequence table exercising the
sparse-row case, the cardinality error, and the element-per-row loop. -/
theorem c4_witness :
    (let tW : Table :=
      { columns := [
          { id := .str ("a"), label := .str ("a"), type := ("number")
            custom_properties := .obj [], depth := 0, container := ("iter") },
          { id := .str ("b"), label := .str ("b"), type := ("string")
            custom_properties := .obj [], depth := 0, container := ("iter") }],
        data := [], customProperties := .obj [] };
     (innerAppendData tW.columns [] .null (.arr [.num 7]) 0
        = .ok [{ cells := (tW.columns.map (fun c => jsToPropKey c.id)).zip [.num 7],
                 cp := .null }])
     ∧ (innerAppendData tW.columns [] .null (.arr [.num 1, .num 2, .num 3]) 0
        = .error ("Too many elements given in data"))
     ∧ (appendData tW (.arr [.arr [.num 7]]) .null
        = (([.arr [.num 7]] : List JSVal).mapM
            (fun e => innerAppendData tW.columns [] .null e 0)).map
              (fun parts => { tW with data := tW.data ++ parts.flatten }))) := by
  intro tW
  have h := c4_depth0_sequence_binding tW .null (by simp) (by decide) (by decide)
  exact ⟨h.1 [.num 7] (by decide), h.2.1 [.num 1, .num 2, .num 3] (by decide),
    h.2.2.1 [.arr [.num 7]]⟩

/-- C8: for a tuple-form cell `[v, f, ...]` of length 2 or 3, whatever
escaping function a renderer supplies, the encoded *underlying value* is
produced by the recursive call with the *default* escaper (the source calls
itself without passing `escapeFn` on), and the supplied escaper is applied
only to the formatted text. -/
theorem c8_tuple_value_uses_default_escaper (v fv : JSVal) (rest : List JSVal)
    (ty : String) (esc : EscFn) (r : SVJS)
    (hlen : rest.length ≤ 1)
    (hok : singleValueToJS (.arr (v :: fv :: rest)) ty esc = .ok r) :
    ∃ jv, singleValueToJS v ty escapeValueFn = .ok jv ∧
      ((fv.looseIsNull = true ∧ r = .fmt jv none) ∨
       (∃ s fs, fv = .str s ∧ esc (.str s) = .ok fs ∧ r = .fmt jv (some fs))) := by
  rw [singleValueToJS_tuple_step] at hok
  split at hok
  · exact Except.noConfusion hok
  · split at hok
    · exact Except.noConfusion hok
    · rename_i hfmt
      cases hv : singleValueToJS v ty escapeValueFn with
      | error e =>
        rw [hv] at hok
        simp only [Except.bind] at hok
        exact Except.noConfusion hok
      | ok jv =>
        rw [hv] at hok
        refine ⟨jv, rfl, ?_⟩
        simp only [Except.bind] at hok
        by_cases hnull : fv.looseIsNull
        · left
          rw [if_pos hnull] at hok
          exact ⟨hnull, by cases hok; rfl⟩
        · right
          rw [if_neg hnull] at hok
          have hstr : fv.isString = true := by
            cases hs : fv.isString
            · exact absurd ((by simpa using hfmt : fv.isString = false → fv.looseIsNull = true) hs) hnull
            · rfl
          obtain ⟨s, rfl⟩ : ∃ s, fv = .str s := by
            cases fv <;> simp_all [JSVal.isString]
          cases hesc : esc (.str s) with
          | error e =>
            rw [hesc] at hok
            simp only [Except.bind] at hok
            exact Except.noConfusion hok
          | ok fs =>
            rw [hesc] at hok
            simp only [Except.bind] at hok
            exact ⟨s, fs, rfl, hesc, by cases hok; rfl⟩

/-- C8 witness: encoding the tuple `['x', '5$']` as a string cell with the
CSV escaper yields the default-escaped value `'x'` (single quotes, the
default escaper's output) with the CSV-escaped formatted text `"5$"`. -/
theorem c8_witness :
    (([] : List JSVal).length ≤ 1)
  ∧ ∃ jv, singleValueToJS (.str ("x")) ("string") escapeValueFn = .ok jv ∧
      (((JSVal.str ("5$")).looseIsNull = true ∧
          SVJS.fmt (.prim ("\x27x\x27")) (some ("\x225$\x22")) = .fmt jv none) ∨
       (∃ s fs, JSVal.str ("5$") = .str s ∧ escapeValueForCSV (.str s) = .ok fs ∧
          SVJS.fmt (.prim ("\x27x\x27")) (some ("\x225$\x22")) = .fmt jv (some fs))) :=
  ⟨by decide,
   c8_tuple_value_uses_default_escaper (.str ("x")) (.str ("5$")) [] ("string")
     escapeValueForCSV (.fmt (.prim ("\x27x\x27")) (some ("\x225$\x22")))
     (by decide) rfl⟩

/-- C1: against the claim, the data binder copies *nothing* from a
keyed-mapping fragment at the last depth level.  For the two-column mapping
table `{a:'number', b:'string'}` (both columns at depth 0, the depth of the
last column), appending the payload `[{a:1, b:'z'}]` — whose keys are
exactly the remaining column ids, with non-null values — commits one row
whose cell object is empty: the `for (key in this._columns[colIndex])` loop
ranges over the descriptor's own properties, derives `undefined` ids, and
matches nothing.  The claim requires the committed row to carry `a = 1` and
`b = 'z'`. -/
theorem c1_lastLevel_mapping_copies_nothing :
    ((createDataTable (.obj [(("a"), .str ("number")), (("b"), .str ("string"))]) .null .null).bind
      (fun p => appendData p.1 (.arr [.obj [(("a"), .num 1), (("b"), .str ("z"))]]) .null)).map
      (fun t => (numberOfRows t, t.data.map Row.cells))
    = .ok (1, [[]]) := rfl

/-- C2: against the claim, the single-pair ordering `['a','desc']` does not
sort descending and an invalid direction token in a single pair raises no
error.  The wrap test `isArray(orderBy && orderBy.length == 2)` applies
`isArray` to a boolean, so the pair is never wrapped and its two strings
are consumed as two separate ascending sort keys.  On a one-column table
with rows `[[1],[2]]`: `preparedData(['a','desc'])` returns the rows still
ascending, `preparedData(['a','foo'])` succeeds instead of raising, while
the list-of-pairs form `[['a','desc']]` does sort descending. -/
theorem c2_single_pair_ordering_ignores_direction :
    ((createDataTable (.arr [.arr [.str ("a"), .str ("number")]])
        (.arr [.arr [.num 1], .arr [.num 2]]) .null).map
      (fun p =>
        ((preparedData p.1 (.arr [.str ("a"), .str ("desc")])).map (fun q => q.1.map Row.cells),
         (preparedData p.1 (.arr [.str ("a"), .str ("foo")])).map (fun q => q.1.map Row.cells),
         (preparedData p.1 (.arr [.arr [.str ("a"), .str ("desc")]])).map (fun q => q.1.map Row.cells))))
    = .ok
        (.ok [[(("a"), .num 1)], [(("a"), .num 2)]],
         .ok [[(("a"), .num 1)], [(("a"), .num 2)]],
         .ok [[(("a"), .num 2)], [(("a"), .num 1)]]) := rfl

/-- C5: against the claim, `toJSON` omits a present, non-empty cell: the
omission test is `!value`, so the boolean cell `false` in the non-last
column `a` is dropped (an empty hole between the commas of the `c:` array)
even though the row demonstrably stores `a = false`.  The claim requires
every present, non-empty cell to be emitted as an encoded cell object. -/
theorem c5_toJSON_omits_falsy_present_cell :
    ((createDataTable (.arr [.arr [.str ("a"), .str ("boolean")], .arr [.str ("b"), .str ("string")]])
        (.arr [.arr [.bool false, .str ("x")]]) .null).bind
      (fun p => (toJSON p.1 none .null).map (fun q => (q.1, p.1.data.map Row.cells))))
    = .ok
        (("\x7bcols:[\x7bid:\x27a\x27,label:\x27a\x27,type:\x27boolean\x27\x7d,")
          ++ ("\x7bid:\x27b\x27,label:\x27b\x27,type:\x27string\x27\x7d],")
          ++ ("rows:[\x7bc:[,\x7bv:\x27x\x27\x7d]\x7d]\x7d"),
         [[(("a"), .bool false), (("b"), .str ("x"))]]) := rfl

theorem JSVal.truthy_arr (xs : List JSVal) : (JSVal.arr xs).truthy = true := rfl

theorem JSVal.tType_arr (xs : List JSVal) : (JSVal.arr xs).tType = ("array") := rfl

theorem JSVal.truthy_str (s : String) : (JSVal.str s).truthy = (s != ("")) := rfl

theorem JSVal.tType_str (s : String) : (JSVal.str s).tType = ("string") := rfl

/-- C6 (amended): what `columnTypeParser` actually enforces.  It fails when
the id element, or a present type element, is not a string — but the label
element is never checked and may be any value; it fails when the
case-insensitively matched type is not one of the six supported names; it
fails when a fourth element is present whose JavaScript `typeof` is not
'object' (string-keyed maps, but also arrays and `null`, are accepted) and
when a fifth element is present; otherwise the type defaults to 'string'
and the label defaults to the id. -/
theorem c6_amended_columnTypeParser_checks :
    (∀ (x : JSVal) (xs : List JSVal), x.isString = false →
      exceptIsErr (columnTypeParser (.arr (x :: xs))) = true)
  ∧ (∀ (x y : JSVal) (xs : List JSVal), y.isString = false →
      exceptIsErr (columnTypeParser (.arr (x :: y :: xs))) = true)
  ∧ (∀ (i ty : String) (xs : List JSVal), validTypes.contains (strToLower ty) = false →
      exceptIsErr (columnTypeParser (.arr (.str i :: .str ty :: xs))) = true)
  ∧ (∀ (a b c cp : JSVal) (rest : List JSVal), cp.isObject = false →
      exceptIsErr (columnTypeParser (.arr (a :: b :: c :: cp :: rest))) = true)
  ∧ (∀ (a b c d e : JSVal) (rest : List JSVal),
      exceptIsErr (columnTypeParser (.arr (a :: b :: c :: d :: e :: rest))) = true)
  ∧ (∀ i : String, i ≠ ("") →
      columnTypeParser (.str i)
        = .ok { id := .str i, label := .str i, type := ("string"), custom_properties := .obj [] }
      ∧ columnTypeParser (.arr [.str i])
        = .ok { id := .str i, label := .str i, type := ("string"), custom_properties := .obj [] })
  ∧ (∀ (i ty : String) (lb : JSVal), validTypes.contains (strToLower ty) = true →
      columnTypeParser (.arr [.str i, .str ty, lb])
        = .ok { id := .str i, label := lb, type := strToLower ty, custom_properties := .obj [] })
  ∧ (∀ (i ty : String) (lb cp : JSVal), validTypes.contains (strToLower ty) = true →
      cp.isObject = true →
      columnTypeParser (.arr [.str i, .str ty, lb, cp])
        = .ok { id := .str i, label := lb, type := strToLower ty, custom_properties := cp }) := by
  refine ⟨?_, ?_, ?_, ?_, ?_, ?_, ?_, ?_⟩
  · intro x xs hx
    cases x <;> simp_all [columnTypeParser, JSVal.isString, exceptIsErr,
      JSVal.truthy_arr, JSVal.tType_arr]
  · intro x y xs hy
    cases x <;> cases y <;> simp_all [columnTypeParser, JSVal.isString, exceptIsErr,
      JSVal.truthy_arr, JSVal.tType_arr]
  · intro i ty xs hty
    match xs with
    | [] => simp_all [columnTypeParser, JSVal.isString, exceptIsErr,
        JSVal.truthy_arr, JSVal.tType_arr, asStr]
    | [c] => simp_all [columnTypeParser, JSVal.isString, exceptIsErr,
        JSVal.truthy_arr, JSVal.tType_arr, asStr]
    | [c, cp] =>
      by_cases hcp : cp.isObject
      · simp_all [columnTypeParser, JSVal.isString, exceptIsErr,
          JSVal.truthy_arr, JSVal.tType_arr, asStr]
      · simp_all [columnTypeParser, JSVal.isString, exceptIsErr,
          JSVal.truthy_arr, JSVal.tType_arr, asStr]
    | c :: cp :: e :: rest =>
      by_cases hcp : cp.isObject
      · simp_all [columnTypeParser, JSVal.isString, exceptIsErr,
          JSVal.truthy_arr, JSVal.tType_arr, asStr]
      · simp_all [columnTypeParser, JSVal.isString, exceptIsErr,
          JSVal.truthy_arr, JSVal.tType_arr, asStr]
  · intro a b c cp rest hcp
    cases ha : a.isString
    · cases a <;> simp_all [columnTypeParser, JSVal.isString, exceptIsErr,
        JSVal.truthy_arr, JSVal.tType_arr]
    · cases hb : b.isString
      · cases a <;> cases b <;> simp_all [columnTypeParser, JSVal.isString, exceptIsErr,
          JSVal.truthy_arr, JSVal.tType_arr]
      · obtain ⟨s, rfl⟩ : ∃ s, a = .str s := by cases a <;> simp_all [JSVal.isString]
        obtain ⟨u, rfl⟩ : ∃ u, b = .str u := by cases b <;> simp_all [JSVal.isString]
        simp_all [columnTypeParser, JSVal.isString, exceptIsErr,
          JSVal.truthy_arr, JSVal.tType_arr, asStr]
  · intro a b c d e rest
    cases ha : a.isString
    · cases a <;> simp_all [columnTypeParser, JSVal.isString, exceptIsErr,
        JSVal.truthy_arr, JSVal.tType_arr]
    · cases hb : b.isString
      · cases a <;> cases b <;> simp_all [columnTypeParser, JSVal.isString, exceptIsErr,
          JSVal.truthy_arr, JSVal.tType_arr]
      · obtain ⟨s, rfl⟩ : ∃ s, a = .str s := by cases a <;> simp_all [JSVal.isString]
        obtain ⟨u, rfl⟩ : ∃ u, b = .str u := by cases b <;> simp_all [JSVal.isString]
        by_cases hd : d.isObject
        · simp_all [columnTypeParser, JSVal.isString, exceptIsErr,
            JSVal.truthy_arr, JSVal.tType_arr, asStr]
        · simp_all [columnTypeParser, JSVal.isString, exceptIsErr,
            JSVal.truthy_arr, JSVal.tType_arr, asStr]
  · intro i hne
    constructor
    · simp_all [columnTypeParser, JSVal.isString, JSVal.truthy_str, JSVal.tType_str, validTypes]
    · simp_all [columnTypeParser, JSVal.isString, JSVal.truthy_arr, JSVal.tType_arr, validTypes]
  · intro i ty lb hty
    simp_all [columnTypeParser, JSVal.isString, JSVal.truthy_arr, JSVal.tType_arr, asStr]
  · intro i ty lb cp hty hcp
    simp_all [columnTypeParser, JSVal.isString, JSVal.truthy_arr, JSVal.tType_arr, asStr]

/-- C6 witness: concrete instances of the amended contract — a numeric id
fails, an unknown type name fails, a bare string id takes the defaults, and
a non-string label with an upper-case type name parses to the lower-cased
type and the label verbatim. -/
theorem c6_witness :
    ((JSVal.num 5).isString = false
      ∧ exceptIsErr (columnTypeParser (.arr [.num 5])) = true)
  ∧ (validTypes.contains (strToLower ("blah")) = false
      ∧ exceptIsErr (columnTypeParser (.arr [.str ("a"), .str ("blah")])) = true)
  ∧ ((("abc") : String) ≠ ("")
      ∧ columnTypeParser (.str ("abc"))
          = .ok { id := .str ("abc"), label := .str ("abc"), type := ("string")
                  custom_properties := .obj [] })
  ∧ (validTypes.contains (strToLower ("Number")) = true
      ∧ columnTypeParser (.arr [.str ("a"), .str ("Number"), .num 42])
          = .ok { id := .str ("a"), label := .num 42, type := strToLower ("Number")
                  custom_properties := .obj [] }) :=
  ⟨⟨rfl, c6_amended_columnTypeParser_checks.1 (.num 5) [] rfl⟩,
   ⟨by decide, c6_amended_columnTypeParser_checks.2.2.1 ("a") ("blah") [] (by decide)⟩,
   ⟨by decide, (c6_amended_columnTypeParser_checks.2.2.2.2.2.1 ("abc") (by decide)).1⟩,
   ⟨by decide, c6_amended_columnTypeParser_checks.2.2.2.2.2.2.1 ("a") ("Number") (.num 42)
      (by decide)⟩⟩

/-- C6 counterexample: a column description whose label element is not a
string and whose fourth element is an array (not a string-keyed map)
parses successfully — the source checks only `description.slice(0,2)` for
string-ness and accepts any fourth element of JavaScript object type.  The
claim, as stated, requires this parse to fail on both counts. -/
theorem c6_counterexample_nonstring_label_and_array_props_accepted :
    columnTypeParser (.arr [.str ("a"), .str ("string"), .num 42, .arr [.str ("x")]])
      = .ok { id := .str ("a"), label := .num 42, type := ("string")
              custom_properties := .arr [.str ("x")] } := rfl

theorem preparedData_state (t : Table) (ob : JSVal) (r : List Row × Table)
    (h : preparedData t ob = .ok r) : r.2 = t := by
  unfold preparedData at h
  dsimp only at h
  split at h
  · split at h
    · cases h; rfl
    · split at h
      · exact Except.noConfusion h
      · cases h; rfl
  · split at h
    · cases h; rfl
    · split at h
      · exact Except.noConfusion h
      · cases h; rfl

theorem preparedData_sorted_clone (t : Table) (ob : JSVal) (rows : List Row) (t' : Table)
    (hlen : obLength ob ≠ 0) (hnull : ob.looseIsNull = false)
    (h : preparedData t ob = .ok (rows, t')) :
    t' = t ∧ ∃ keys, rows = jsSort (rowCompare keys) (cloneDataRows t.data) := by
  unfold preparedData at h
  dsimp only at h
  rw [hnull] at h
  simp only [Bool.false_eq_true, if_false] at h
  rw [if_neg (by simp [hlen])] at h
  split at h
  · exact Except.noConfusion h
  · rename_i keys _
    injection h with h
    injection h with h1 h2
    exact ⟨h2.symm, keys, h1.symm⟩

theorem toJSON_state (t : Table) (co : Option (List String)) (ob : JSVal)
    (r : String × Table) (h : toJSON t co ob = .ok r) : r.2 = t := by
  unfold toJSON at h
  dsimp only at h
  split at h
  · exact Except.noConfusion h
  · split at h
    · exact Except.noConfusion h
    · rename_i prepData t1 hprep
      split at h
      · exact Except.noConfusion h
      · cases h
        exact preparedData_state t ob (prepData, t1) hprep

theorem toJSCode_state (t : Table) (name : String) (co : Option (List String)) (ob : JSVal)
    (r : String × Table) (h : toJSCode t name co ob = .ok r) : r.2 = t := by
  unfold toJSCode at h
  dsimp only at h
  split at h
  · exact Except.noConfusion h
  · split at h
    · exact Except.noConfusion h
    · rename_i prepData t1 hprep
      split at h
      · exact Except.noConfusion h
      · cases h
        exact preparedData_state t ob (prepData, t1) hprep

theorem toCSV_state (t : Table) (co : Option (List String)) (ob : JSVal) (sep : String)
    (r : String × Table) (h : toCSV t co ob sep = .ok r) : r.2 = t := by
  unfold toCSV at h
  dsimp only at h
  split at h
  · exact Except.noConfusion h
  · split at h
    · exact Except.noConfusion h
    · rename_i prepData t1 hprep
      split at h
      · exact Except.noConfusion h
      · cases h
        exact preparedData_state t ob (prepData, t1) hprep

theorem toTSVExcel_state (t : Table) (co : Option (List String)) (ob : JSVal)
    (r : String × Table) (h : toTSVExcel t co ob = .ok r) : r.2 = t :=
  toCSV_state t co ob ("\t") r h

theorem toHTML_state (t : Table) (co : Option (List String)) (ob : JSVal)
    (r : String × Table) (h : toHTML t co ob = .ok r) : r.2 = t := by
  unfold toHTML at h
  dsimp only at h
  split at h
  · exact Except.noConfusion h
  · split at h
    · exact Except.noConfusion h
    · rename_i prepData t1 hprep
      split at h
      · exact Except.noConfusion h
      · cases h
        exact preparedData_state t ob (prepData, t1) hprep

theorem toJSONResponse_state (t : Table) (co : Option (List String))
    (ob reqId handler : JSVal) (r : String × Table)
    (h : toJSONResponse t co ob reqId handler = .ok r) : r.2 = t := by
  unfold toJSONResponse at h
  dsimp only at h
  split at h
  · exact Except.noConfusion h
  · rename_i table t1 hjson
    cases h
    exact toJSON_state t co ob (table, t1) hjson

theorem toResponse_state (t : Table) (co : Option (List String)) (ob : JSVal) (tqx : String)
    (r : String × Table) (h : toResponse t co ob tqx = .ok r) : r.2 = t := by
  unfold toResponse at h
  dsimp only at h
  split at h
  · exact Except.noConfusion h
  · split at h
    · exact Except.noConfusion h
    · split at h
      · exact toJSONResponse_state t co ob _ _ r h
      · split at h
        · exact toHTML_state t co ob r h
        · split at h
          · exact toCSV_state t co ob (", ") r h
          · split at h
            · exact toTSVExcel_state t co ob r h
            · exact Except.noConfusion h

/-- C7: every render operation is read-only over the table state — whenever
`toJSON`, `toJSCode`, `toCSV`, `toTSVExcel`, `toHTML`, `toJSONResponse` or
`toResponse` returns, the final table state has the same column list and
the same stored row list as before the call; and `preparedData` with a
non-empty ordering returns a sort of a *clone* of the stored row list
(`cloneDataRows`, the `_o.clone` copy), leaving the stored list itself in
place. -/
theorem c7_renderers_read_only :
    (∀ (t : Table) (ob : JSVal) (r : List Row × Table),
      preparedData t ob = .ok r → r.2.columns = t.columns ∧ r.2.data = t.data)
  ∧ (∀ (t : Table) (ob : JSVal) (rows : List Row) (t' : Table),
      obLength ob ≠ 0 → ob.looseIsNull = false →
      preparedData t ob = .ok (rows, t') →
      t' = t ∧ ∃ keys, rows = jsSort (rowCompare keys) (cloneDataRows t.data))
  ∧ (∀ (t : Table) (co : Option (List String)) (ob : JSVal) (r : String × Table),
      toJSON t co ob = .ok r → r.2.columns = t.columns ∧ r.2.data = t.data)
  ∧ (∀ (t : Table) (name : String) (co : Option (List String)) (ob : JSVal)
      (r : String × Table),
      toJSCode t name co ob = .ok r → r.2.columns = t.columns ∧ r.2.data = t.data)
  ∧ (∀ (t : Table) (co : Option (List String)) (ob : JSVal) (sep : String)
      (r : String × Table),
      toCSV t co ob sep = .ok r → r.2.columns = t.columns ∧ r.2.data = t.data)
  ∧ (∀ (t : Table) (co : Option (List String)) (ob : JSVal) (r : String × Table),
      toTSVExcel t co ob = .ok r → r.2.columns = t.columns ∧ r.2.data = t.data)
  ∧ (∀ (t : Table) (co : Option (List String)) (ob : JSVal) (r : String × Table),
      toHTML t co ob = .ok r → r.2.columns = t.columns ∧ r.2.data = t.data)
  ∧ (∀ (t : Table) (co : Option (List String)) (ob reqId handler : JSVal)
      (r : String × Table),
      toJSONResponse t co ob reqId handler = .ok r →
      r.2.columns = t.columns ∧ r.2.data = t.data)
  ∧ (∀ (t : Table) (co : Option (List String)) (ob : JSVal) (tqx : String)
      (r : String × Table),
      toResponse t co ob tqx = .ok r → r.2.columns = t.columns ∧ r.2.data = t.data) := by
  refine ⟨?_, ?_, ?_, ?_, ?_, ?_, ?_, ?_, ?_⟩
  · intro t ob r h
    rw [preparedData_state t ob r h]
    exact ⟨rfl, rfl⟩
  · intro t ob rows t' hlen hnull h
    exact preparedData_sorted_clone t ob rows t' hlen hnull h
  · intro t co ob r h
    rw [toJSON_state t co ob r h]
    exact ⟨rfl, rfl⟩
  · intro t name co ob r h
    rw [toJSCode_state t name co ob r h]
    exact ⟨rfl, rfl⟩
  · intro t co ob sep r h
    rw [toCSV_state t co ob sep r h]
    exact ⟨rfl, rfl⟩
  · intro t co ob r h
    rw [toTSVExcel_state t co ob r h]
    exact ⟨rfl, rfl⟩
  · intro t co ob r h
    rw [toHTML_state t co ob r h]
    exact ⟨rfl, rfl⟩
  · intro t co ob reqId handler r h
    rw [toJSONResponse_state t co ob reqId handler r h]
    exact ⟨rfl, rfl⟩
  · intro t co ob tqx r h
    rw [toResponse_state t co ob tqx r h]
    exact ⟨rfl, rfl⟩

/-- C7 witness: a concrete two-row table on which each renderer succeeds
and provably leaves the columns and the stored rows unchanged, and on
which a non-empty ordering provably sorts a clone of the row list. -/
theorem c7_witness :
    (let tW : Table :=
      { columns := [
          { id := .str ("a"), label := .str ("a"), type := ("number")
            custom_properties := .obj [], depth := 0, container := ("iter") }],
        data := [{ cells := [(("a"), .num 2)], cp := .null },
                 { cells := [(("a"), .num 1)], cp := .null }],
        customProperties := .obj [] };
     (∃ r, preparedData tW (.str ("a")) = .ok r
        ∧ r.2.columns = tW.columns ∧ r.2.data = tW.data)
     ∧ (∃ rows t', preparedData tW (.str ("a")) = .ok (rows, t') ∧ t' = tW
          ∧ ∃ keys, rows = jsSort (rowCompare keys) (cloneDataRows tW.data))
     ∧ (∃ r, toJSON tW none .null = .ok r
        ∧ r.2.columns = tW.columns ∧ r.2.data = tW.data)
     ∧ (∃ r, toJSCode tW ("t") none .null = .ok r
        ∧ r.2.columns = tW.columns ∧ r.2.data = tW.data)
     ∧ (∃ r, toCSV tW none .null (", ") = .ok r
        ∧ r.2.columns = tW.columns ∧ r.2.data = tW.data)
     ∧ (∃ r, toTSVExcel tW none .null = .ok r
        ∧ r.2.columns = tW.columns ∧ r.2.data = tW.data)
     ∧ (∃ r, toHTML tW none .null = .ok r
        ∧ r.2.columns = tW.columns ∧ r.2.data = tW.data)
     ∧ (∃ r, toJSONResponse tW none .null (.num 0) (.str ("h")) = .ok r
        ∧ r.2.columns = tW.columns ∧ r.2.data = tW.data)
     ∧ (∃ r, toResponse tW none .null ("") = .ok r
        ∧ r.2.columns = tW.columns ∧ r.2.data = tW.data)) := by
  intro tW
  refine ⟨⟨_, rfl, c7_renderers_read_only.1 tW (.str ("a")) _ rfl⟩,
    ⟨_, _, rfl, ?_, ?_⟩,
    ⟨_, rfl, c7_renderers_read_only.2.2.1 tW none .null _ rfl⟩,
    ⟨_, rfl, c7_renderers_read_only.2.2.2.1 tW ("t") none .null _ rfl⟩,
    ⟨_, rfl, c7_renderers_read_only.2.2.2.2.1 tW none .null (", ") _ rfl⟩,
    ⟨_, rfl, c7_renderers_read_only.2.2.2.2.2.1 tW none .null _ rfl⟩,
    ⟨_, rfl, c7_renderers_read_only.2.2.2.2.2.2.1 tW none .null _ rfl⟩,
    ⟨_, rfl, c7_renderers_read_only.2.2.2.2.2.2.2.1 tW none .null (.num 0) (.str ("h")) _ rfl⟩,
    ⟨_, rfl, c7_renderers_read_only.2.2.2.2.2.2.2.2 tW none .null ("") _ rfl⟩⟩
  · exact (c7_renderers_read_only.2.1 tW (.str ("a")) _ _ (by decide) rfl rfl).1
  · exact (c7_renderers_read_only.2.1 tW (.str ("a")) _ _ (by decide) rfl rfl).2

end Gvisdata
